import Mathlib

/-!
# Network configuration of k0s (`pkg/apis/k0s.k0sproject.io/v1beta1/network.go`)

A shallow embedding of `network.go` together with the library functions it calls
(`net.ParseCIDR`, `net.IP`, `net.IPNet`, `k8s.io/utils/net`, `govalidator.IsDNSName`).

Conventions.
* A Go `byte` is a `Nat`; every arithmetic operation on a byte is followed by `% 256`.
* A Go `string` is a Lean `String`; parsers walk over its list of characters.
* `net.IP` and `net.IPMask` are byte lists (`List Nat`); the nil slice is `[]`.
* Go slices are references.  Where the source writes through a slice that shares its
  backing array with another value, the sharing is modelled explicitly (`IPRef`).
* A run-time panic is an explicit outcome (`Go.panic`).
-/

namespace K0s

/-- Outcome of running a Go function body: it returns a value or it panics. -/
inductive Go (α : Type) where
  | ret (a : α)
  | panic (msg : String)
deriving DecidableEq, Repr

/-! ## Package `net` of the Go standard library -/

namespace Net

def IPv4len : Nat := 4
def IPv6len : Nat := 16

/-- The twelve leading bytes of an IPv4 address stored in 16 bytes (`v4InV6Prefix`). -/
def v4InV6Lead : List Nat := [0, 0, 0, 0, 0, 0, 0, 0, 0, 0, 255, 255]

def isDigit (c : Char) : Bool := decide (48 ≤ c.toNat) && decide (c.toNat ≤ 57)

/-- Value of a hexadecimal digit, `none` for any other character. -/
def hexVal (c : Char) : Option Nat :=
  if 48 ≤ c.toNat ∧ c.toNat ≤ 57 then some (c.toNat - 48)
  else if 97 ≤ c.toNat ∧ c.toNat ≤ 102 then some (c.toNat - 97 + 10)
  else if 65 ≤ c.toNat ∧ c.toNat ≤ 70 then some (c.toNat - 65 + 10)
  else none

/-- The character `digits[d]` of the constant `digits = "0123456789"`; callers pass
`d < 10` (for a byte `x` the indices `x/100`, `x/10%10`, `x%10`). -/
def digitChar (d : Nat) : Char := Char.ofNat (48 + d % 10)

/-- The character `"0123456789abcdef"[d]`; callers pass `d < 16`. -/
def hexChar (d : Nat) : Char :=
  if d % 16 < 10 then Char.ofNat (48 + d % 16) else Char.ofNat (87 + d % 16)

/-- `net.CIDRMask`, the loop over the `l = bits / 8` mask bytes. -/
def cidrMaskBytes : Nat → Nat → List Nat
  | 0, _ => []
  | l + 1, n =>
    if n ≥ 8 then 255 :: cidrMaskBytes l (n - 8)
    else (255 - 255 / 2 ^ n) :: cidrMaskBytes l 0

/-- `net.CIDRMask(ones, bits)`: nil unless `bits` is 32 or 128 and `ones ≤ bits`. -/
def CIDRMask (ones bits : Nat) : List Nat :=
  if bits ≠ 8 * IPv4len ∧ bits ≠ 8 * IPv6len then []
  else if ones > bits then []
  else cidrMaskBytes (bits / 8) ones

/-- Number of leading one bits of a byte, and the byte shifted left by that amount
(the loop `for v&0x80 != 0 { n++; v <<= 1 }` of `simpleMaskLength`). -/
def leadingOnes : Nat → Nat → Nat × Nat
  | 0, v => (0, v)
  | k + 1, v =>
    if v / 128 % 2 = 1 then
      let r := leadingOnes k (v * 2 % 256)
      (r.1 + 1, r.2)
    else (0, v)

/-- `simpleMaskLength`: `none` stands for the result `-1`. -/
def simpleMaskLength : List Nat → Option Nat
  | [] => some 0
  | v :: rest =>
    if v = 255 then (simpleMaskLength rest).map (· + 8)
    else
      let r := leadingOnes 8 v
      if r.2 ≠ 0 then none
      else if rest.all (· == 0) then some r.1 else none

/-- `IPMask.Size`: `(ones, bits)`, or `(0, 0)` for a non-canonical mask. -/
def MaskSize (m : List Nat) : Nat × Nat :=
  match simpleMaskLength m with
  | none => (0, 0)
  | some ones => (ones, m.length * 8)

def isZeros (p : List Nat) : Bool := p.all (· == 0)

def allFF (p : List Nat) : Bool := p.all (· == 255)

/-- `IP.To4` as a value: the 4-byte form, or nil (`[]`) when `ip` is not an IPv4 address. -/
def To4 (ip : List Nat) : List Nat :=
  if ip.length = IPv4len then ip
  else if ip.length = IPv6len ∧ isZeros (ip.take 10) ∧ ip.getD 10 0 = 255 ∧ ip.getD 11 0 = 255 then
    ip.drop 12
  else []

/-- `net.IPv4(a, b, c, d)`: a fresh 16-byte slice. -/
def IPv4 (a b c d : Nat) : List Nat := v4InV6Lead ++ [a, b, c, d]

/-- `IP.To16` as a value. -/
def To16 (ip : List Nat) : List Nat :=
  if ip.length = IPv4len then IPv4 (ip.getD 0 0) (ip.getD 1 0) (ip.getD 2 0) (ip.getD 3 0)
  else if ip.length = IPv6len then ip
  else []

/-- `IP.Mask`: nil when the lengths cannot be reconciled. -/
def IPMask (ip mask : List Nat) : List Nat :=
  let mask := if mask.length = IPv6len ∧ ip.length = IPv4len ∧ allFF (mask.take 12)
    then mask.drop 12 else mask
  let ip := if mask.length = IPv4len ∧ ip.length = IPv6len ∧ ip.take 12 = v4InV6Lead
    then ip.drop 12 else ip
  if ip.length ≠ mask.length then []
  else List.zipWith (fun a m => a &&& m) ip mask

/-- `net.IPNet`. -/
structure IPNet where
  IP : List Nat
  Mask : List Nat
deriving DecidableEq, Repr

/-- `networkNumberAndMask`; `none` stands for `(nil, nil)`. -/
def networkNumberAndMask (n : IPNet) : Option (List Nat × List Nat) :=
  let ip4 := To4 n.IP
  if ip4 = [] ∧ n.IP.length ≠ IPv6len then none
  else
    let ip := if ip4 = [] then n.IP else ip4
    if n.Mask.length = IPv4len then
      if ip.length ≠ IPv4len then none else some (ip, n.Mask)
    else if n.Mask.length = IPv6len then
      if ip.length = IPv4len then some (ip, n.Mask.drop 12) else some (ip, n.Mask)
    else none

/-- `IPNet.Contains`: the masked bytes of the network number and of `ip` agree. -/
def Contains (n : IPNet) (ip : List Nat) : Bool :=
  match networkNumberAndMask n with
  | none => false
  | some (nn, m) =>
    let ip := if To4 ip ≠ [] then To4 ip else ip
    if ip.length ≠ nn.length then false
    else (List.range ip.length).all
      (fun i => (nn.getD i 0 &&& m.getD i 0) == (ip.getD i 0 &&& m.getD i 0))

/-! ### Textual form of addresses (`IP.String`, `netip.Addr.String`) -/

/-- `appendDecimal`: a byte in decimal, without leading zeros. -/
def appendDecimal (x : Nat) : List Char :=
  (if x ≥ 100 then [digitChar (x / 100)] else []) ++
  (if x ≥ 10 then [digitChar (x / 10 % 10)] else []) ++ [digitChar (x % 10)]

/-- `appendHex`: a 16-bit group in lower-case hexadecimal, without leading zeros. -/
def appendHex (x : Nat) : List Char :=
  (if x ≥ 4096 then [hexChar (x / 4096)] else []) ++
  (if x ≥ 256 then [hexChar (x / 256 % 16)] else []) ++
  (if x ≥ 16 then [hexChar (x / 16 % 16)] else []) ++ [hexChar (x % 16)]

/-- Dotted-decimal text of four bytes. -/
def string4 (p : List Nat) : List Char :=
  appendDecimal (p.getD 0 0) ++ '.' :: appendDecimal (p.getD 1 0) ++
    '.' :: appendDecimal (p.getD 2 0) ++ '.' :: appendDecimal (p.getD 3 0)

/-- The eight 16-bit groups of a 16-byte address (`v6u16`). -/
def groups16 (ip : List Nat) : List Nat :=
  (List.range 8).map (fun i => ip.getD (2 * i) 0 * 256 + ip.getD (2 * i + 1) 0)

/-- Length of the run of zero groups that starts at group `i`. -/
def zeroRun (g : List Nat) (i : Nat) : Nat := ((g.drop i).takeWhile (· == 0)).length

/-- First loop of `AppendTo6`: the first longest run of at least two zero groups, as
`(zeroStart, zeroEnd)`; `(255, 255)` when there is none. -/
def zeroSpan (g : List Nat) : Nat × Nat :=
  (List.range 8).foldl
    (fun z i => if zeroRun g i ≥ 2 ∧ zeroRun g i > z.2 - z.1 then (i, i + zeroRun g i) else z)
    (255, 255)

/-- Second loop of `AppendTo6`, from group `i` on. -/
def appendGroups (g : List Nat) (zs ze : Nat) : Nat → Nat → List Char
  | 0, _ => []
  | k + 1, i =>
    if i ≥ 8 then []
    else if i = zs then
      if ze ≥ 8 then [':', ':']
      else ':' :: ':' :: (appendHex (g.getD ze 0) ++ appendGroups g zs ze k (ze + 1))
    else
      (if i > 0 then [':'] else []) ++ appendHex (g.getD i 0) ++ appendGroups g zs ze k (i + 1)

/-- Text of a 16-byte address that is not an IPv4 address. -/
def string6 (ip : List Nat) : List Char :=
  let g := groups16 ip
  appendGroups g (zeroSpan g).1 (zeroSpan g).2 8 0

/-- `hexString`, used by `IP.String` for slices of an irregular length. -/
def hexString (b : List Nat) : List Char :=
  b.flatMap (fun x => [hexChar (x / 16), hexChar (x % 16)])

/-- `IP.String`. -/
def IPString (ip : List Nat) : String :=
  if ip.length = 0 then "<nil>"
  else if ip.length ≠ IPv4len ∧ ip.length ≠ IPv6len then String.mk ('?' :: hexString ip)
  else if (To4 ip).length = IPv4len then String.mk (string4 (To4 ip))
  else String.mk (string6 ip)

/-! ### Parsing (`netip.ParseAddr`, `net.ParseIP`, `net.ParseCIDR`)

The flag `sloppy` selects the lenient reading of `k8s.io/utils/net` (`ParseIPSloppy`,
`ParseCIDRSloppy`, a copy of the parser of Go 1.16): decimal octets and hexadecimal groups
may carry leading zeros.  With `sloppy = false` the functions are those of package `net`.
A zone (`%`) is rejected by `ParseIP` and `ParseCIDR` in every case, so `%` is treated as
an unexpected character. -/

/-- `parseIPv4Fields`: walks over the text, `val` is the octet being read, `digLen` its
number of digits, `fields` the octets completed so far, `prev` the previous character. -/
def parseIPv4Fields (sloppy : Bool) :
    List Char → Nat → Nat → List Nat → Option Char → Option (List Nat)
  | [], val, _, fields, _ =>
    if fields.length < 3 then none else some (fields ++ [val % 256])
  | c :: cs, val, digLen, fields, prev =>
    if isDigit c then
      if digLen = 1 ∧ val = 0 ∧ sloppy = false then none
      else if val * 10 + (c.toNat - 48) > 255 then none
      else parseIPv4Fields sloppy cs (val * 10 + (c.toNat - 48)) (digLen + 1) fields (some c)
    else if c = '.' then
      if prev = none ∨ cs = [] ∨ prev = some '.' then none
      else if fields.length = 3 then none
      else parseIPv4Fields sloppy cs 0 0 (fields ++ [val % 256]) (some c)
    else none

/-- `parseIPv4`: the four octets. -/
def parseIPv4 (sloppy : Bool) (s : List Char) : Option (List Nat) :=
  parseIPv4Fields sloppy s 0 0 [] none

/-- Reads the hexadecimal digits at the head of the text: their number, their value and
the rest of the text. -/
def spanHex : List Char → Nat → Nat → Nat × Nat × List Char
  | [], off, acc => (off, acc, [])
  | c :: cs, off, acc =>
    match hexVal c with
    | some d => spanHex cs (off + 1) (acc * 16 + d)
    | none => (off, acc, c :: cs)

/-- The loop `for i < 16` of `parseIPv6`; `ip` holds the `i` bytes read so far, `ellipsis`
the position of `::`.  Each round reads one group, so eight rounds suffice.  Returns the
bytes, the ellipsis and the unread text. -/
def parseIPv6Loop (sloppy : Bool) :
    Nat → List Nat → Option Nat → List Char → Option (List Nat × Option Nat × List Char)
  | 0, ip, ellipsis, s => some (ip, ellipsis, s)
  | k + 1, ip, ellipsis, s =>
    match spanHex s 0 0 with
    | (off, acc, rest) =>
      if off = 0 then none
      else if sloppy = false ∧ off > 4 then none
      else if acc > 65535 then none
      else if rest.head? = some '.' then
        if ellipsis = none ∧ ip.length ≠ 12 then none
        else if ip.length + 4 > 16 then none
        else
          match parseIPv4 sloppy s with
          | none => none
          | some f => some (ip ++ f, ellipsis, [])
      else
        let ip := ip ++ [acc / 256 % 256, acc % 256]
        match rest with
        | [] => some (ip, ellipsis, [])
        | c :: s1 =>
          if c ≠ ':' then none
          else
            match s1 with
            | [] => none
            | c1 :: s2 =>
              if c1 = ':' then
                if ellipsis ≠ none then none
                else if s2 = [] then some (ip, some ip.length, [])
                else parseIPv6Loop sloppy k ip (some ip.length) s2
              else parseIPv6Loop sloppy k ip ellipsis s1

/-- `parseIPv6`: the sixteen bytes. -/
def parseIPv6 (sloppy : Bool) (s : List Char) : Option (List Nat) :=
  let lead : Bool := s.take 2 = [':', ':']
  let s1 := if lead then s.drop 2 else s
  if lead ∧ s1 = [] then some (List.replicate 16 0)
  else
    match parseIPv6Loop sloppy 8 [] (if lead then some 0 else none) s1 with
    | none => none
    | some (ip, ellipsis, rest) =>
      if rest ≠ [] then none
      else if ip.length < 16 then
        match ellipsis with
        | none => none
        | some e =>
          let out := ip.take e ++ List.replicate (16 - ip.length) 0 ++ ip.drop e
          if out.length = 16 then some out else none
      else if ellipsis ≠ none then none
      else if ip.length = 16 then some ip else none

/-- A parsed address (`netip.Addr` without zone): four octets or sixteen bytes. -/
inductive Addr where
  | v4 (fields : List Nat)
  | v6 (bytes : List Nat)
deriving DecidableEq, Repr

def Addr.BitLen : Addr → Nat
  | .v4 _ => 32
  | .v6 _ => 128

def Addr.As16 : Addr → List Nat
  | .v4 f => v4InV6Lead ++ f
  | .v6 b => b

/-- The characters `ParseAddr` looks for. -/
def isSeparator (c : Char) : Bool := c == '.' || c == ':' || c == '%'

/-- `ParseAddr`: the first of `.`, `:` and `%` in the text selects the parser. -/
def ParseAddr (sloppy : Bool) (s : List Char) : Option Addr :=
  match s.find? isSeparator with
  | some '.' => (parseIPv4 sloppy s).map Addr.v4
  | some ':' => (parseIPv6 sloppy s).map Addr.v6
  | _ => none

/-- `net.ParseIP` (`ParseIPSloppy` with `sloppy = true`): 16 bytes, or `none` for nil. -/
def ParseIP (sloppy : Bool) (s : String) : Option (List Nat) :=
  (ParseAddr sloppy s.data).map Addr.As16

/-- `dtoi` applied to a whole text: `none` unless the text is a non-empty run of decimal
digits whose value stays below `big = 0xFFFFFF`. -/
def dtoi : List Char → Nat → Bool → Option Nat
  | [], n, seen => if seen then some n else none
  | c :: cs, n, _ =>
    if isDigit c then
      if n * 10 + (c.toNat - 48) ≥ 16777215 then none
      else dtoi cs (n * 10 + (c.toNat - 48)) true
    else none

/-- `net.ParseCIDR` (`ParseCIDRSloppy` with `sloppy = true`): the address as 16 bytes and
the network; `none` stands for the parse error. -/
def ParseCIDRWith (sloppy : Bool) (s : String) : Option (List Nat × IPNet) :=
  if s.data.all (fun c => c ≠ '/') then none
  else
    let addr := s.data.takeWhile (fun c => c ≠ '/')
    let mask := (s.data.dropWhile (fun c => c ≠ '/')).drop 1
    match ParseAddr sloppy addr, dtoi mask 0 false with
    | some a, some n =>
      if n > a.BitLen then none
      else
        let m := CIDRMask n a.BitLen
        some (a.As16, { IP := IPMask a.As16 m, Mask := m })
    | _, _ => none

def ParseCIDR (s : String) : Option (List Nat × IPNet) := ParseCIDRWith false s

def ParseCIDRSloppy (s : String) : Option (List Nat × IPNet) := ParseCIDRWith true s

/-! ### Slices that share a backing array

`IP.To4` and `IP.To16` return the receiver itself (or a sub-slice of it) whenever no
conversion is needed; only `To16` of a 4-byte slice allocates.  A write through the
returned slice is then a write into the receiver.  `IPRef` records which of the cases
holds, relative to the backing array of the receiver. -/

/-- A slice obtained from an `IP` value `ip`: nil, the window `ip[off : off+len]` on the
backing array of `ip`, or freshly allocated bytes. -/
inductive IPRef where
  | nil
  | window (off len : Nat)
  | fresh (bytes : List Nat)
deriving DecidableEq, Repr

/-- `ip.To4()` as a reference: `return ip`, `return ip[12:16]` or `return nil`. -/
def To4Ref (ip : List Nat) : IPRef :=
  if ip.length = IPv4len then .window 0 4
  else if ip.length = IPv6len ∧ isZeros (ip.take 10) ∧ ip.getD 10 0 = 255 ∧ ip.getD 11 0 = 255 then
    .window 12 4
  else .nil

/-- `ip.To16()` as a reference: `return IPv4(...)` (fresh), `return ip` or `return nil`. -/
def To16Ref (ip : List Nat) : IPRef :=
  if ip.length = IPv4len then
    .fresh (IPv4 (ip.getD 0 0) (ip.getD 1 0) (ip.getD 2 0) (ip.getD 3 0))
  else if ip.length = IPv6len then .window 0 16
  else .nil

/-- The bytes seen through a reference when the backing array holds `ip`. -/
def IPRef.load (ip : List Nat) : IPRef → List Nat
  | .nil => []
  | .window off len => (ip.drop off).take len
  | .fresh b => b

/-- The assignment `r[i] = v`: the new contents of the backing array and the reference;
`none` when the index is out of range (a run-time panic). -/
def IPRef.store (ip : List Nat) (r : IPRef) (i v : Nat) : Option (List Nat × IPRef) :=
  match r with
  | .nil => none
  | .window off len => if i < len then some (ip.set (off + i) v, .window off len) else none
  | .fresh b => if i < b.length then some (ip, .fresh (b.set i v)) else none

end Net



/-! ## Package `k8s.io/utils/net` -/

namespace Utilnet

open Net

/-- `big.Int.SetBytes`: the number whose big-endian digits are the bytes. -/
def bigOfBytes (b : List Nat) : Nat := b.foldl (fun acc x => acc * 256 + x) 0

/-- `big.Int.Bytes`: the big-endian digits without leading zeros, prepended to `acc`;
the first argument bounds the number of digits. -/
def bigBytesAux : Nat → Nat → List Nat → List Nat
  | 0, _, acc => acc
  | k + 1, n, acc => if n = 0 then acc else bigBytesAux k (n / 256) (n % 256 :: acc)

def bigBytes (n : Nat) : List Nat := bigBytesAux n n []

/-- `BigForIP`. -/
def BigForIP (ip : List Nat) : Nat := bigOfBytes (To16 ip)

/-- `addIPOffset`: the last 16 bytes of sixteen zero bytes followed by the digits of
`base + offset`. -/
def addIPOffset (base offset : Nat) : List Nat :=
  let r := List.replicate 16 0 ++ bigBytes (base + offset)
  r.drop (r.length - 16)

/-- `GetIndexedIP`: `none` stands for the error "subnet too small". -/
def GetIndexedIP (subnet : IPNet) (index : Nat) : Option (List Nat) :=
  let ip := addIPOffset (BigForIP subnet.IP) index
  if Contains subnet ip then some ip else none

/-- `ParseCIDRs`: every text parsed in order; `none` stands for the error raised at the
first text that does not parse. -/
def ParseCIDRs : List String → Option (List IPNet)
  | [] => some []
  | c :: rest =>
    match ParseCIDRSloppy c with
    | none => none
    | some (_, cidr) =>
      match ParseCIDRs rest with
      | none => none
      | some cidrs => some (cidr :: cidrs)

end Utilnet

/-! ## Package `govalidator` -/

namespace Govalidator

def isWord (c : Char) : Bool :=
  (decide (97 ≤ c.toNat) && decide (c.toNat ≤ 122)) ||
  (decide (65 ≤ c.toNat) && decide (c.toNat ≤ 90)) ||
  (decide (48 ≤ c.toNat) && decide (c.toNat ≤ 57)) || c == '_'

/-- Matcher for the rest of `rxDNSName` once the first character of a label has been
read; `cnt` is the number of characters of the label read so far, `0` right after a dot.
A label is one character of `[a-zA-Z0-9_]` followed by at most 62 of `[a-zA-Z0-9_-]`; labels
are separated by single dots and the text may end in one more `.` or `_`. -/
def rxDNSNameFrom : List Char → Nat → Bool
  | [], _ => true
  | c :: cs, cnt =>
    if c = '.' then decide (cnt ≥ 1) && rxDNSNameFrom cs 0
    else if cnt = 0 then isWord c && rxDNSNameFrom cs 1
    else if cnt < 63 then (isWord c || c == '-') && rxDNSNameFrom cs (cnt + 1)
    else c == '_' && cs.isEmpty

/-- The regular expression `rxDNSName`, anchored at both ends. -/
def rxDNSName : List Char → Bool
  | [] => false
  | c :: cs => isWord c && rxDNSNameFrom cs 1

/-- `govalidator.IsIP`. -/
def IsIP (str : String) : Bool := (Net.ParseIP false str).isSome

/-- `govalidator.IsDNSName`. -/
def IsDNSName (str : String) : Bool :=
  if str = "" ∨ (String.mk (str.data.filter (fun c => c ≠ '.'))).utf8ByteSize > 255 then false
  else !IsIP str && rxDNSName str.data

end Govalidator

/-! ## Package `k8s.io/apimachinery/pkg/util/validation/field` -/

inductive ErrorType where
  | Required
  | Invalid
  | NotSupported
  | Forbidden
deriving DecidableEq, Repr

/-- `field.Error`: kind (the Go field `Type`), dotted field path, offending value and
detail message. -/
structure FieldError where
  Kind : ErrorType
  Field : String
  BadValue : String
  Detail : String
deriving DecidableEq, Repr

/-- A Go `error` value as it appears in the list returned by `Validate`: a `*field.Error`
or an error of another kind, identified by its message. -/
inductive Err where
  | field (e : FieldError)
  | other (msg : String)
deriving DecidableEq, Repr

namespace Field

/-- `field.NewPath(name, moreNames...).String()`. -/
def NewPath (name : String) (moreNames : List String) : String :=
  moreNames.foldl (fun p m => p ++ "." ++ m) name

def Required (path detail : String) : Err :=
  .field { Kind := .Required, Field := path, BadValue := "", Detail := detail }

def Invalid (path value detail : String) : Err :=
  .field { Kind := .Invalid, Field := path, BadValue := value, Detail := detail }

def Forbidden (path detail : String) : Err :=
  .field { Kind := .Forbidden, Field := path, BadValue := "", Detail := detail }

/-- `field.NotSupported`: the detail lists the quoted valid values. -/
def NotSupported (path value : String) (validValues : List String) : Err :=
  .field { Kind := .NotSupported, Field := path, BadValue := value,
           Detail := if validValues.isEmpty then ""
             else "supported values: " ++
               ", ".intercalate (validValues.map (fun v => "\"" ++ v ++ "\"")) }

end Field

/-! ## The configuration types

`network.go` declares `Network` only.  The declarations of the sub-configurations live in
sibling files; each is modelled with the fields `network.go` reads and one uninterpreted
`settings` value that stands for everything else. -/

/-- Modelled from the spec: the declaration of `Calico` is in a sibling file; `network.go`
reads its `Mode` only. -/
structure Calico where
  Mode : String
  settings : Nat
deriving DecidableEq, Repr

/-- Modelled from the spec: the declaration of `KubeRouter` is in a sibling file;
`network.go` reads none of its fields. -/
structure KubeRouter where
  settings : Nat
deriving DecidableEq, Repr

/-- Modelled from the spec: the declaration of `KubeProxyIPTables` is in a sibling file. -/
structure KubeProxyIPTables where
  settings : Nat
deriving DecidableEq, Repr

/-- Modelled from the spec: the declaration of `KubeProxyIPVS` is in a sibling file. -/
structure KubeProxyIPVS where
  settings : Nat
deriving DecidableEq, Repr

/-- Modelled from the spec: the declaration of `KubeProxy` is in a sibling file;
`network.go` reads and writes the pointers `IPTables` and `IPVS`. -/
structure KubeProxy where
  IPTables : Option KubeProxyIPTables
  IPVS : Option KubeProxyIPVS
  settings : Nat
deriving DecidableEq, Repr

/-- Modelled from the spec: the declaration of `DualStack` is in a sibling file; the
three fields are those `network.go` reads. -/
structure DualStack where
  Enabled : Bool
  IPv6PodCIDR : String
  IPv6ServiceCIDR : String
deriving DecidableEq, Repr

/-- `Network`: pointer fields are options, `none` being the nil pointer. -/
structure Network where
  Calico : Option Calico
  DualStack : DualStack
  KubeProxy : Option KubeProxy
  KubeRouter : Option KubeRouter
  PodCIDR : String
  Provider : String
  ServiceCIDR : String
  ClusterDomain : String
deriving DecidableEq, Repr

/-- The functions of sibling files that `network.go` calls: the default values and the
validation of the kube-proxy configuration (a method on `*KubeProxy`, so it also receives
the nil pointer and may panic). -/
structure Env where
  DefaultCalico : Calico
  DefaultKubeRouter : KubeRouter
  DefaultDualStack : DualStack
  DefaultKubeProxyIPTables : KubeProxyIPTables
  DefaultKubeProxyIPVS : KubeProxyIPVS
  defaultKubeProxySettings : Nat
  KubeProxyValidate : Option KubeProxy → Go (List Err)

/-- Modelled from the spec: `DefaultKubeProxy` is in a sibling file; it is "a full default
KubeProxy config (including IPTables and IPVS defaults)". -/
def DefaultKubeProxy (env : Env) : KubeProxy :=
  { IPTables := some env.DefaultKubeProxyIPTables
    IPVS := some env.DefaultKubeProxyIPVS
    settings := env.defaultKubeProxySettings }

/-- Modelled from the spec: `IsIPv6String` is in a sibling file; it tells the address
family from the text of an address: true exactly when the text parses as an IP address
that has no 4-byte form. -/
def IsIPv6String (ip : String) : Bool :=
  match Net.ParseIP false ip with
  | none => false
  | some netIP => Net.To4 netIP = []

/-- `DefaultNetwork`. -/
def DefaultNetwork (env : Env) : Network :=
  { PodCIDR := "10.244.0.0/16"
    ServiceCIDR := "10.96.0.0/12"
    Provider := "kuberouter"
    KubeRouter := some env.DefaultKubeRouter
    DualStack := env.DefaultDualStack
    KubeProxy := some (DefaultKubeProxy env)
    ClusterDomain := "cluster.local"
    Calico := none }

/-- A Go result pair `(value, error)`: exactly one of the two is meaningful. -/
inductive Result (ε α : Type) where
  | ok (a : α)
  | err (e : ε)
deriving DecidableEq, Repr

/-! ## Package `encoding/json`, as far as `UnmarshalJSON` depends on it

`json.Unmarshal(data, jc)` decodes a document into the existing value `jc`: a key that is
missing leaves the field as it is, `null` leaves a string or struct field as it is and sets
a pointer field to nil, a value of the right type is stored (an object is decoded into the
existing struct, which is allocated first when the pointer is nil), and a value of a wrong
type makes the call fail. -/

/-- What a document holds for a string field. -/
inductive JString where
  | absent
  | null
  | str (v : String)
  | mistyped
deriving DecidableEq, Repr

/-- What a document holds for a struct or pointer-to-struct field; `fill old` is the
struct after decoding the object into `old` (`none`: a freshly allocated struct). -/
inductive JObject (α : Type) where
  | absent
  | null
  | object (fill : Option α → α)
  | mistyped

/-- The keys of the document, named by their JSON tags. -/
structure Fields where
  calico : JObject Calico
  dualStack : JObject DualStack
  kubeProxy : JObject KubeProxy
  kuberouter : JObject KubeRouter
  podCIDR : JString
  provider : JString
  serviceCIDR : JString
  clusterDomain : JString

/-- The bytes handed to `UnmarshalJSON`: not a JSON object at all, the literal `null`, or
an object. -/
inductive Document where
  | invalid
  | null
  | object (f : Fields)

namespace Json

/-- Error of `json.Unmarshal`. -/
inductive Error where
  | syntaxOrType
deriving DecidableEq, Repr

def decodeString (j : JString) (old : String) : Option String :=
  match j with
  | .absent => some old
  | .null => some old
  | .str v => some v
  | .mistyped => none

def decodePointer {α : Type} (j : JObject α) (old : Option α) : Option (Option α) :=
  match j with
  | .absent => some old
  | .null => some none
  | .object fill => some (some (fill old))
  | .mistyped => none

def decodeStruct {α : Type} (j : JObject α) (old : α) : Option α :=
  match j with
  | .absent => some old
  | .null => some old
  | .object fill => some (fill (some old))
  | .mistyped => none

/-- `json.Unmarshal(data, jc)` for `jc` of the method-less type `network`. -/
def Unmarshal (data : Document) (n : Network) : Result Error Network :=
  match data with
  | .invalid => .err .syntaxOrType
  | .null => .ok n
  | .object f =>
    match decodePointer f.calico n.Calico, decodeStruct f.dualStack n.DualStack,
          decodePointer f.kubeProxy n.KubeProxy, decodePointer f.kuberouter n.KubeRouter,
          decodeString f.podCIDR n.PodCIDR, decodeString f.provider n.Provider,
          decodeString f.serviceCIDR n.ServiceCIDR,
          decodeString f.clusterDomain n.ClusterDomain with
    | some c, some d, some kp, some kr, some pod, some pr, some svc, some dom =>
      .ok { Calico := c, DualStack := d, KubeProxy := kp, KubeRouter := kr, PodCIDR := pod,
            Provider := pr, ServiceCIDR := svc, ClusterDomain := dom }
    | _, _, _, _, _, _, _, _ => .err .syntaxOrType

end Json

/-! ## `network.go` -/

namespace Network

open Net

/-- The condition `n.Provider == "calico" && n.Calico.Mode != "bird"` of `Validate`; the
right operand is evaluated only when the left one holds, and reading `Mode` through a nil
`Calico` panics. -/
def calicoModeNotBird (n : Network) : Go Bool :=
  if n.Provider = "calico" then
    match n.Calico with
    | none => .panic "invalid memory address or nil pointer dereference"
    | some c => .ret (decide (c.Mode ≠ "bird"))
  else .ret false

/-- The body of `if n.DualStack.Enabled { ... }` in `Validate`. -/
def validateDualStack (n : Network) (errors : List Err) : Go (List Err) :=
  match calicoModeNotBird n with
  | .panic m => .panic m
  | .ret notBird =>
    let errors :=
      if notBird then
        errors ++ [Field.Forbidden (Field.NewPath "calico" ["mode"])
          "dual stack for calico is only supported for mode `bird`"]
      else errors
    let errors :=
      if (ParseCIDR n.DualStack.IPv6PodCIDR).isNone then
        errors ++ [Field.Invalid (Field.NewPath "dualStack" ["IPv6podCIDR"])
          n.DualStack.IPv6PodCIDR "invalid CIDR address"]
      else errors
    let errors :=
      if (ParseCIDR n.DualStack.IPv6ServiceCIDR).isNone then
        errors ++ [Field.Invalid (Field.NewPath "dualStack" ["IPv6serviceCIDR"])
          n.DualStack.IPv6ServiceCIDR "invalid CIDR address"]
      else errors
    .ret errors

/-- `Validate`, lines 63 to 106; the receiver is a pointer, `none` being nil. -/
def Validate (env : Env) : Option Network → Go (List Err)
  | none => .ret []
  | some n =>
    let errors : List Err := []
    let errors :=
      if n.Provider = "" then errors ++ [Field.Required (Field.NewPath "provider" []) ""]
      else if n.Provider ≠ "calico" ∧ n.Provider ≠ "custom" ∧ n.Provider ≠ "kuberouter" then
        errors ++ [Field.NotSupported (Field.NewPath "provider" []) n.Provider
          ["kuberouter", "calico", "custom"]]
      else errors
    let errors :=
      if (ParseCIDR n.PodCIDR).isNone then
        errors ++ [Field.Invalid (Field.NewPath "podCIDR" []) n.PodCIDR "invalid CIDR address"]
      else errors
    let errors :=
      if (ParseCIDR n.ServiceCIDR).isNone then
        errors ++ [Field.Invalid (Field.NewPath "serviceCIDR" []) n.ServiceCIDR
          "invalid CIDR address"]
      else errors
    let errors :=
      if !Govalidator.IsDNSName n.ClusterDomain then
        errors ++ [Field.Invalid (Field.NewPath "clusterDomain" []) n.ClusterDomain
          "invalid DNS name"]
      else errors
    match (if n.DualStack.Enabled then validateDualStack n errors else .ret errors) with
    | .panic m => .panic m
    | .ret errors =>
      match env.KubeProxyValidate n.KubeProxy with
      | .panic m => .panic m
      | .ret kubeProxyErrors => .ret (errors ++ kubeProxyErrors)

/-- The two errors `DNSAddress` can return. -/
inductive DNSError where
  | parse (cidr : String)
  | invalid (address : String)
deriving DecidableEq, Repr

/-- `DNSAddress`, lines 109 to 132.  `address` is a slice obtained from `ipnet.IP` by
`To4` or `To16`; the assignment to `address[3]` goes through `IPRef.store`, so that it
reaches the bytes of `ipnet.IP` whenever the two share their backing array, and
`ipnet.Contains` is evaluated on the network as it is after the assignment. -/
def DNSAddress (n : Network) : Go (Result DNSError String) :=
  match ParseCIDR n.ServiceCIDR with
  | none => .ret (.err (.parse n.ServiceCIDR))
  | some (_, ipnet) =>
    let address := if IsIPv6String (IPString ipnet.IP) then To16Ref ipnet.IP else To4Ref ipnet.IP
    let prefixlen := (MaskSize ipnet.Mask).1
    let old := (address.load ipnet.IP).getD 3 0
    let new := if prefixlen < 29 then (old + 10) % 256 else (old + 2) % 256
    match address.store ipnet.IP 3 new with
    | none => .panic "index out of range [3]"
    | some (ip1, address1) =>
      let ipnet1 : IPNet := { IP := ip1, Mask := ipnet.Mask }
      if !Contains ipnet1 (address1.load ip1) then
        .ret (.err (.invalid (IPString (address1.load ip1))))
      else .ret (.ok (IPString (address1.load ip1)))

/-- The two errors `InternalAPIAddresses` can return. -/
inductive APIError where
  | parse
  | index
deriving DecidableEq, Repr

/-- The loop of `InternalAPIAddresses` over the parsed networks. -/
def indexedAddresses : List IPNet → Result APIError (List String)
  | [] => .ok []
  | ip :: rest =>
    match Utilnet.GetIndexedIP ip 1 with
    | none => .err .index
    | some apiIP =>
      match indexedAddresses rest with
      | .err e => .err e
      | .ok l => .ok (IPString apiIP :: l)

/-- `InternalAPIAddresses`, lines 135 to 156. -/
def InternalAPIAddresses (n : Network) : Result APIError (List String) :=
  let cidrs := [n.ServiceCIDR]
  let cidrs := if n.DualStack.Enabled then cidrs ++ [n.DualStack.IPv6ServiceCIDR] else cidrs
  match Utilnet.ParseCIDRs cidrs with
  | none => .err .parse
  | some parsedCIDRs => indexedAddresses parsedCIDRs

/-- Lines 169 to 186 of `UnmarshalJSON`: the defaulting that follows the decoding. -/
def applyDefaults (env : Env) (n : Network) : Network :=
  let n :=
    if n.Provider = "calico" ∧ n.Calico = none then
      { n with Calico := some env.DefaultCalico, KubeRouter := none }
    else if n.Provider = "kuberouter" ∧ n.KubeRouter = none then
      { n with KubeRouter := some env.DefaultKubeRouter, Calico := none }
    else n
  match n.KubeProxy with
  | none => { n with KubeProxy := some (DefaultKubeProxy env) }
  | some kp =>
    let kp := if kp.IPTables = none then
      { kp with IPTables := some env.DefaultKubeProxyIPTables } else kp
    let kp := if kp.IPVS = none then { kp with IPVS := some env.DefaultKubeProxyIPVS } else kp
    { n with KubeProxy := some kp }

/-- `UnmarshalJSON`, lines 159 to 189, applied to the receiver `n`. -/
def UnmarshalJSON (env : Env) (n : Network) (data : Document) : Result Json.Error Network :=
  let n := { n with Provider := "kuberouter" }
  match Json.Unmarshal data n with
  | .err e => .err e
  | .ok n => .ok (applyDefaults env n)

/-- `BuildServiceCIDR`, lines 192 to 204. -/
def BuildServiceCIDR (n : Network) (addr : String) : String :=
  if !n.DualStack.Enabled then n.ServiceCIDR
  else if IsIPv6String addr then n.DualStack.IPv6ServiceCIDR ++ "," ++ n.ServiceCIDR
  else n.ServiceCIDR ++ "," ++ n.DualStack.IPv6ServiceCIDR

/-- `BuildPodCIDR`, lines 207 to 212. -/
def BuildPodCIDR (n : Network) : String :=
  if n.DualStack.Enabled then n.DualStack.IPv6PodCIDR ++ "," ++ n.PodCIDR
  else n.PodCIDR

end Network

/-! ## Reference definitions, written after the specification -/

namespace Spec

open Net

/-- The error list the specification asks of the validator (section 4.2), for a
configuration whose `Calico` block is `c` and whose kube-proxy validation yields
`kubeProxyErrors`: one optional entry per check, in the order of the checks. -/
def expectedErrors (n : Network) (c : Calico) (kubeProxyErrors : List Err) : List Err :=
  (if n.Provider = "" then [Field.Required "provider" ""] else []) ++
  (if n.Provider ≠ "" ∧ n.Provider ∉ ["kuberouter", "calico", "custom"] then
    [Field.NotSupported "provider" n.Provider ["kuberouter", "calico", "custom"]] else []) ++
  (if ParseCIDR n.PodCIDR = none then
    [Field.Invalid "podCIDR" n.PodCIDR "invalid CIDR address"] else []) ++
  (if ParseCIDR n.ServiceCIDR = none then
    [Field.Invalid "serviceCIDR" n.ServiceCIDR "invalid CIDR address"] else []) ++
  (if Govalidator.IsDNSName n.ClusterDomain = false then
    [Field.Invalid "clusterDomain" n.ClusterDomain "invalid DNS name"] else []) ++
  (if n.DualStack.Enabled = true then
    (if n.Provider = "calico" ∧ c.Mode ≠ "bird" then
      [Field.Forbidden "calico.mode" "dual stack for calico is only supported for mode `bird`"]
      else []) ++
    (if ParseCIDR n.DualStack.IPv6PodCIDR = none then
      [Field.Invalid "dualStack.IPv6podCIDR" n.DualStack.IPv6PodCIDR "invalid CIDR address"]
      else []) ++
    (if ParseCIDR n.DualStack.IPv6ServiceCIDR = none then
      [Field.Invalid "dualStack.IPv6serviceCIDR" n.DualStack.IPv6ServiceCIDR
        "invalid CIDR address"]
      else [])
   else []) ++
  kubeProxyErrors

/-- Invariant 1 of the data model: `Calico` is present exactly when the provider is
calico, `KubeRouter` exactly when it is kuberouter. -/
def providerBlocksMatch (n : Network) : Prop :=
  (n.Calico.isSome ↔ n.Provider = "calico") ∧ (n.KubeRouter.isSome ↔ n.Provider = "kuberouter")

/-- What the document holds under the key `provider`. -/
def docProvider : Document → JString
  | .object f => f.provider
  | _ => .absent

/-- The document leaves the receiver without a `Calico` block: the key is `null`, or it is
missing and the receiver holds none. -/
def noCalicoBlock (data : Document) (old : Option Calico) : Prop :=
  match data with
  | .object f => Json.decodePointer f.calico old = some none
  | _ => old = none

/-- The document leaves the receiver without a `KubeRouter` block. -/
def noKubeRouterBlock (data : Document) (old : Option KubeRouter) : Prop :=
  match data with
  | .object f => Json.decodePointer f.kuberouter old = some none
  | _ => old = none

/-- The networks `ParseCIDR` returns: the mask is `CIDRMask p bits` for `bits` 32 or 128
and `p ≤ bits`, and the address is some `bits / 8` bytes masked byte by byte. -/
def IsCIDRNet (net : Net.IPNet) (bits p : Nat) : Prop :=
  (bits = 32 ∨ bits = 128) ∧ p ≤ bits ∧ net.Mask = CIDRMask p bits ∧
  ∃ raw : List Nat, raw.length = bits / 8 ∧
    net.IP = List.zipWith (fun a m => a &&& m) raw (CIDRMask p bits)

/-- The 32-bit value of four bytes. -/
def ipv4Value (ip : List Nat) : Nat :=
  ((ip.getD 0 0 * 256 + ip.getD 1 0) * 256 + ip.getD 2 0) * 256 + ip.getD 3 0

/-- The `k` big-endian bytes of `n` (of `n` modulo `256 ^ k`). -/
def bytesBE : Nat → Nat → List Nat
  | 0, _ => []
  | k + 1, n => bytesBE k (n / 256) ++ [n % 256]

/-- An address with 1 added to its last byte. -/
def plusOne (ip : List Nat) : List Nat :=
  ip.set (ip.length - 1) (ip.getD (ip.length - 1) 0 + 1)

/-- The address at index 1 of a service CIDR, as the specification describes it (section
4.3): the text of the network address plus 1; none when the CIDR does not parse or when
its prefix length equals its bit length (a /32 or /128 block, which has no index 1). -/
def indexOne (cidr : String) : Option String :=
  match ParseCIDRSloppy cidr with
  | none => none
  | some (_, net) =>
    if (MaskSize net.Mask).1 = (MaskSize net.Mask).2 then none
    else some (IPString (plusOne net.IP))

/-- The errors `Validate` appends itself, before those of the kube-proxy validation;
`notBird` is the outcome of the calico mode check. -/
def ownErrors (n : Network) (notBird : Bool) : List Err :=
  (if n.Provider = "" then [Field.Required "provider" ""]
   else if n.Provider ∉ ["kuberouter", "calico", "custom"] then
    [Field.NotSupported "provider" n.Provider ["kuberouter", "calico", "custom"]] else []) ++
  (if ParseCIDR n.PodCIDR = none then
    [Field.Invalid "podCIDR" n.PodCIDR "invalid CIDR address"] else []) ++
  (if ParseCIDR n.ServiceCIDR = none then
    [Field.Invalid "serviceCIDR" n.ServiceCIDR "invalid CIDR address"] else []) ++
  (if Govalidator.IsDNSName n.ClusterDomain = false then
    [Field.Invalid "clusterDomain" n.ClusterDomain "invalid DNS name"] else []) ++
  (if n.DualStack.Enabled = true then
    (if notBird = true then
      [Field.Forbidden "calico.mode" "dual stack for calico is only supported for mode `bird`"]
      else []) ++
    (if ParseCIDR n.DualStack.IPv6PodCIDR = none then
      [Field.Invalid "dualStack.IPv6podCIDR" n.DualStack.IPv6PodCIDR "invalid CIDR address"]
      else []) ++
    (if ParseCIDR n.DualStack.IPv6ServiceCIDR = none then
      [Field.Invalid "dualStack.IPv6serviceCIDR" n.DualStack.IPv6ServiceCIDR
        "invalid CIDR address"]
      else [])
   else [])

/-- An error about the field at `path`. -/
def onPath (path : String) : Err → Bool
  | .field e => e.Field == path
  | .other _ => false

/-- A `Forbidden` error about the field at `path`. -/
def forbiddenOn (path : String) : Err → Bool
  | .field e => e.Kind == ErrorType.Forbidden && e.Field == path
  | .other _ => false

/-- What the document holds under the key `podCIDR`. -/
def docPodCIDR : Document → JString
  | .object f => f.podCIDR
  | _ => .absent

/-- What the document holds under the key `serviceCIDR`. -/
def docServiceCIDR : Document → JString
  | .object f => f.serviceCIDR
  | _ => .absent

/-- What the document holds under the key `clusterDomain`. -/
def docClusterDomain : Document → JString
  | .object f => f.clusterDomain
  | _ => .absent

/-- The CIDR parses and its prefix length equals its bit length: a block of one address
(a /32 or /128). -/
def singleAddressBlock (cidr : String) : Prop :=
  ∃ a net, ParseCIDR cidr = some (a, net) ∧ (MaskSize net.Mask).1 = (MaskSize net.Mask).2

/-- The odd digits of decimal and lower-case hexadecimal notation. -/
def oddDigit (c : Char) : Bool := c ∈ ['1', '3', '5', '7', '9', 'b', 'd', 'f']

end Spec

/-! ## Sample values -/

namespace Sample

/-- Collaborators with arbitrary defaults and a kube-proxy validation that accepts. -/
def env : Env :=
  { DefaultCalico := { Mode := "vxlan", settings := 0 }
    DefaultKubeRouter := { settings := 0 }
    DefaultDualStack := { Enabled := false, IPv6PodCIDR := "", IPv6ServiceCIDR := "" }
    DefaultKubeProxyIPTables := { settings := 0 }
    DefaultKubeProxyIPVS := { settings := 0 }
    defaultKubeProxySettings := 0
    KubeProxyValidate := fun _ => .ret [] }

/-- The zero value of `Network`. -/
def zero : Network :=
  { Calico := none, DualStack := { Enabled := false, IPv6PodCIDR := "", IPv6ServiceCIDR := "" }
    KubeProxy := none, KubeRouter := none, PodCIDR := "", Provider := "", ServiceCIDR := ""
    ClusterDomain := "" }

/-- The zero value with the given service CIDR. -/
def withServiceCIDR (cidr : String) : Network := { zero with ServiceCIDR := cidr }

/-- A dual-stack calico configuration in mode `bird` with every sub-configuration set. -/
def dualStackCalico : Network :=
  { Calico := some { Mode := "bird", settings := 0 }
    DualStack := { Enabled := true, IPv6PodCIDR := "fd00::/108", IPv6ServiceCIDR := "fd01::/108" }
    KubeProxy := some (DefaultKubeProxy env)
    KubeRouter := some { settings := 0 }
    PodCIDR := "10.244.0.0/16", Provider := "calico", ServiceCIDR := "10.96.0.0/12"
    ClusterDomain := "cluster.local" }

/-- A dual-stack calico configuration without a `Calico` block. -/
def dualStackCalicoNoBlock : Network := { dualStackCalico with Calico := none }

/-- A document without any key. -/
def emptyFields : Fields :=
  { calico := .absent, dualStack := .absent, kubeProxy := .absent, kuberouter := .absent
    podCIDR := .absent, provider := .absent, serviceCIDR := .absent, clusterDomain := .absent }

/-- The document `{"provider": "calico"}`. -/
def docCalico : Document := .object { emptyFields with provider := .str "calico" }

/-- The document `{"provider": "calico", "calico": {...}, "kuberouter": {...}}`. -/
def docBothBlocks : Document :=
  .object { emptyFields with
    provider := .str "calico"
    calico := .object (fun _ => { Mode := "bird", settings := 1 })
    kuberouter := .object (fun _ => { settings := 1 }) }

/-- The document `{"provider": ""}`. -/
def docEmptyProvider : Document := .object { emptyFields with provider := .str "" }

/-- A configuration with an unknown provider, every block set and dual stack off. -/
def foobar : Network :=
  { dualStackCalico with Provider := "foobar", DualStack := zero.DualStack }

/-- A dual-stack calico configuration in mode `vxlan`. -/
def dualStackCalicoVxlan : Network :=
  { dualStackCalico with Calico := some { Mode := "vxlan", settings := 0 } }

/-- A valid configuration whose service CIDR is a single address. -/
def singleAddress : Network :=
  { dualStackCalico with ServiceCIDR := "10.96.0.0/32", DualStack := zero.DualStack }

end Sample

/-! ## Theorems -/

namespace Net

/-! ### Shape of parsed networks -/

theorem parseIPv4Fields_length (sl : Bool) :
    ∀ (s : List Char) (val dl : Nat) (fields : List Nat) (prev : Option Char) (r : List Nat),
      fields.length ≤ 3 → parseIPv4Fields sl s val dl fields prev = some r → r.length = 4 := by
  intro s
  induction s with
  | nil =>
    intro val dl fields prev r hf h
    unfold parseIPv4Fields at h
    split_ifs at h with h1
    simp only [Option.some.injEq] at h
    subst h
    simp only [List.length_append, List.length_singleton]
    omega
  | cons c cs ih =>
    intro val dl fields prev r hf h
    unfold parseIPv4Fields at h
    split_ifs at h with h1 h2 h3 h4 h5 h6
    · exact ih _ _ _ _ _ hf h
    · refine ih _ _ _ _ _ ?_ h
      simp only [List.length_append, List.length_singleton]
      omega

theorem parseIPv4_length (sl : Bool) (s : List Char) (r : List Nat)
    (h : parseIPv4 sl s = some r) : r.length = 4 :=
  parseIPv4Fields_length sl s 0 0 [] none r (by simp) h

theorem parseIPv6_length (sl : Bool) (s : List Char) (r : List Nat)
    (h : parseIPv6 sl s = some r) : r.length = 16 := by
  unfold parseIPv6 at h
  simp only at h
  repeat' split at h
  all_goals cases h <;> first | assumption | simp

theorem cidrMask32 : ∀ p, p ≤ 32 →
    (CIDRMask p 32).length = 4 ∧ MaskSize (CIDRMask p 32) = (p, 32) ∧
    (CIDRMask p 32).all (fun m => decide (m ≤ 255)) = true := by
  decide

theorem cidrMask128 : ∀ p, p ≤ 128 →
    (CIDRMask p 128).length = 16 ∧ MaskSize (CIDRMask p 128) = (p, 128) ∧
    (CIDRMask p 128).all (fun m => decide (m ≤ 255)) = true := by
  decide

theorem IPMask_v4 (f m : List Nat) (hf : f.length = 4) (hm : m.length = 4) :
    IPMask (v4InV6Lead ++ f) m = List.zipWith (fun a m => a &&& m) f m := by
  unfold IPMask
  simp [hf, hm, IPv4len, IPv6len, v4InV6Lead]

theorem IPMask_v6 (b m : List Nat) (hb : b.length = 16) (hm : m.length = 16) :
    IPMask b m = List.zipWith (fun a m => a &&& m) b m := by
  unfold IPMask
  simp [hb, hm, IPv4len, IPv6len]

theorem ParseAddr_v4_length (sl : Bool) (s : List Char) (f : List Nat)
    (h : ParseAddr sl s = some (.v4 f)) : f.length = 4 := by
  unfold ParseAddr at h
  split at h
  · obtain ⟨f', hp, hf⟩ := Option.map_eq_some'.mp h
    cases hf
    exact parseIPv4_length sl s f hp
  · obtain ⟨f', -, hf⟩ := Option.map_eq_some'.mp h
    cases hf
  · cases h

theorem ParseAddr_v6_length (sl : Bool) (s : List Char) (b : List Nat)
    (h : ParseAddr sl s = some (.v6 b)) : b.length = 16 := by
  unfold ParseAddr at h
  split at h
  · obtain ⟨f', -, hf⟩ := Option.map_eq_some'.mp h
    cases hf
  · obtain ⟨f', hp, hf⟩ := Option.map_eq_some'.mp h
    cases hf
    exact parseIPv6_length sl s b hp
  · cases h

/-- Every network returned by the CIDR parser has the shape `Spec.IsCIDRNet`. -/
theorem ParseCIDRWith_shape (sl : Bool) (s : String) (a : List Nat) (net : IPNet)
    (h : ParseCIDRWith sl s = some (a, net)) : ∃ bits p, Spec.IsCIDRNet net bits p := by
  unfold ParseCIDRWith at h
  simp only at h
  split_ifs at h with h0
  split at h
  · rename_i ad n had hn
    split_ifs at h with h1
    simp only [Option.some.injEq, Prod.mk.injEq] at h
    obtain ⟨-, rfl⟩ := h
    cases ad with
    | v4 f =>
      have hf : f.length = 4 := ParseAddr_v4_length sl _ f had
      simp only [Addr.BitLen, not_lt] at h1
      refine ⟨32, n, Or.inl rfl, h1, rfl, f, hf, ?_⟩
      exact IPMask_v4 f _ hf (cidrMask32 n h1).1
    | v6 b =>
      have hb : b.length = 16 := ParseAddr_v6_length sl _ b had
      simp only [Addr.BitLen, not_lt] at h1
      refine ⟨128, n, Or.inr rfl, h1, rfl, b, hb, ?_⟩
      exact IPMask_v6 b _ hb (cidrMask128 n h1).1
  · cases h

/-! ### The text of a 4-byte address is never read as IPv6 -/

theorem digitChar_not_separator (d : Nat) : isSeparator (digitChar d) = false := by
  have h : ∀ k, k < 10 → isSeparator (Char.ofNat (48 + k)) = false := by decide
  exact h (d % 10) (Nat.mod_lt _ (by decide))

theorem appendDecimal_find (x : Nat) : (appendDecimal x).find? isSeparator = none := by
  unfold appendDecimal
  split_ifs <;> simp [List.find?, digitChar_not_separator]

theorem string4_find (p : List Nat) : (string4 p).find? isSeparator = some '.' := by
  have hdot : isSeparator '.' = true := by decide
  unfold string4
  simp [List.find?_append, appendDecimal_find, List.find?, hdot]

end Net

theorem IsIPv6String_of_length_four (ip : List Nat) (h : ip.length = 4) :
    IsIPv6String (Net.IPString ip) = false := by
  have hs : Net.IPString ip = String.mk (Net.string4 ip) := by
    unfold Net.IPString
    simp [h, Net.To4, Net.IPv4len, Net.IPv6len]
  rw [hs]
  unfold IsIPv6String Net.ParseIP Net.ParseAddr
  simp only [Net.string4_find]
  cases hp : Net.parseIPv4 false (Net.string4 ip) with
  | none => simp
  | some f =>
    have hf := Net.parseIPv4_length false _ f hp
    obtain ⟨a, b, c, d, rfl⟩ : ∃ a b c d, f = [a, b, c, d] := by
      match f, hf with
      | [a, b, c, d], _ => exact ⟨a, b, c, d, rfl⟩
    simp [Net.Addr.As16, Net.To4, Net.v4InV6Lead, Net.IPv4len, Net.IPv6len, Net.isZeros]

namespace Net

theorem Contains_self_of_length_four (ip m : List Nat) (hi : ip.length = 4)
    (hm : m.length = 4) : Contains { IP := ip, Mask := m } ip = true := by
  have hne : ip ≠ [] := by intro h; rw [h] at hi; simp at hi
  unfold Contains networkNumberAndMask
  simp [To4, hi, hm, hne, IPv4len, IPv6len]

theorem cidrMask32_last_byte : ∀ p, p ≤ 28 →
    (CIDRMask p 32).getD 3 0 ∈ [0, 128, 192, 224, 240] := by
  decide

set_option maxRecDepth 100000 in
theorem land_add_ten : ∀ m ∈ [0, 128, 192, 224, 240], ∀ y, y ≤ 240 → y &&& m = y →
    (y + 10) &&& m = y := by
  decide

theorem length_four {α : Type} (l : List α) (h : l.length = 4) :
    ∃ a b c d, l = [a, b, c, d] := by
  match l, h with
  | [a, b, c, d], _ => exact ⟨a, b, c, d, rfl⟩

/-! ### `Contains` on networks of four and of sixteen bytes -/

theorem length_sixteen {α : Type} (l : List α) (h : l.length = 16) :
    ∃ a0 a1 a2 a3 a4 a5 a6 a7 a8 a9 a10 a11 a12 a13 a14 a15,
      l = [a0, a1, a2, a3, a4, a5, a6, a7, a8, a9, a10, a11, a12, a13, a14, a15] := by
  match l, h with
  | [a0, a1, a2, a3, a4, a5, a6, a7, a8, a9, a10, a11, a12, a13, a14, a15], _ =>
    exact ⟨a0, a1, a2, a3, a4, a5, a6, a7, a8, a9, a10, a11, a12, a13, a14, a15, rfl⟩

theorem land_255 (x : Nat) (h : x < 256) : x &&& 255 = x := by
  have := Nat.and_pow_two_sub_one_eq_mod x 8
  simp only [Nat.reducePow, Nat.add_one_sub_one] at this
  rw [this]; exact Nat.mod_eq_of_lt h

theorem Contains_last_sixteen (y0 y1 y2 y3 y4 y5 y6 y7 y8 y9 y10 y11 y12 y13 y14 y15 v : Nat)
    (m : List Nat) (hm : m.length = 16) :
    Contains ⟨[y0,y1,y2,y3,y4,y5,y6,y7,y8,y9,y10,y11,y12,y13,y14,y15], m⟩
      [y0,y1,y2,y3,y4,y5,y6,y7,y8,y9,y10,y11,y12,y13,y14,v] =
      (y15 &&& m.getD 15 0 == v &&& m.getD 15 0) := by
  unfold Contains networkNumberAndMask To4
  by_cases hmap : (isZeros [y0,y1,y2,y3,y4,y5,y6,y7,y8,y9] = true ∧ y10 = 255 ∧ y11 = 255)
  · simp [hmap, hm, IPv4len, IPv6len, List.range_succ]
  · simp [hmap, hm, IPv4len, IPv6len, List.range_succ]

theorem Contains_last_four (y0 y1 y2 y3 v : Nat) (m : List Nat) (hm : m.length = 4) :
    Contains ⟨[y0,y1,y2,y3], m⟩ (v4InV6Lead ++ [y0,y1,y2,v]) =
      (y3 &&& m.getD 3 0 == v &&& m.getD 3 0) := by
  unfold Contains networkNumberAndMask To4
  simp [hm, IPv4len, IPv6len, List.range_succ, v4InV6Lead, isZeros]

theorem Contains_full_four (ip z : List Nat) (hi : ip.length = 4) (hz : z.length = 16)
    (hib : ∀ x ∈ ip, x < 256) (hzb : ∀ x ∈ z, x < 256)
    (h : Contains ⟨ip, [255, 255, 255, 255]⟩ z = true) : z = v4InV6Lead ++ ip := by
  obtain ⟨y0, y1, y2, y3, rfl⟩ := length_four ip hi
  obtain ⟨z0, z1, z2, z3, z4, z5, z6, z7, z8, z9, z10, z11, z12, z13, z14, z15, rfl⟩ :=
    length_sixteen z hz
  simp only [List.mem_cons, List.mem_singleton, List.not_mem_nil, or_false, forall_eq_or_imp,
    forall_eq] at hib hzb
  unfold Contains networkNumberAndMask To4 at h
  by_cases hmap : (isZeros [z0,z1,z2,z3,z4,z5,z6,z7,z8,z9] = true ∧ z10 = 255 ∧ z11 = 255)
  · simp [hmap, IPv4len, IPv6len, List.range_succ, land_255, hib, hzb] at h
    simp [isZeros] at hmap
    simp [v4InV6Lead, hmap, h]
  · simp [hmap, IPv4len, IPv6len, List.range_succ] at h

theorem Contains_full_sixteen (ip z : List Nat) (hi : ip.length = 16) (hz : z.length = 16)
    (hib : ∀ x ∈ ip, x < 256) (hzb : ∀ x ∈ z, x < 256)
    (h : Contains ⟨ip, List.replicate 16 255⟩ z = true) : z = ip := by
  obtain ⟨y0, y1, y2, y3, y4, y5, y6, y7, y8, y9, y10, y11, y12, y13, y14, y15, rfl⟩ :=
    length_sixteen ip hi
  obtain ⟨z0, z1, z2, z3, z4, z5, z6, z7, z8, z9, z10, z11, z12, z13, z14, z15, rfl⟩ :=
    length_sixteen z hz
  simp only [List.mem_cons, List.mem_singleton, List.not_mem_nil, or_false, forall_eq_or_imp,
    forall_eq] at hib hzb
  unfold Contains networkNumberAndMask To4 at h
  by_cases hmap : (isZeros [z0,z1,z2,z3,z4,z5,z6,z7,z8,z9] = true ∧ z10 = 255 ∧ z11 = 255) <;>
  by_cases hmap' : (isZeros [y0,y1,y2,y3,y4,y5,y6,y7,y8,y9] = true ∧ y10 = 255 ∧ y11 = 255)
  · simp [hmap, hmap', IPv4len, IPv6len, List.range_succ, land_255, hib, hzb] at h
    simp [isZeros] at hmap hmap'
    simp [hmap, hmap', h]
  · simp [hmap, hmap', IPv4len, IPv6len, List.range_succ, land_255, hib, hzb] at h
  · simp [hmap, hmap', IPv4len, IPv6len, List.range_succ, land_255, hib, hzb] at h
  · simp [hmap, hmap', IPv4len, IPv6len, List.range_succ, land_255, hib, hzb] at h
    simp [h]
theorem cidrMask_full : CIDRMask 32 32 = [255, 255, 255, 255] ∧
    CIDRMask 128 128 = List.replicate 16 255 := by
  decide

theorem cidrMask32_even : ∀ p, p < 32 →
    (CIDRMask p 32).getD 3 0 ∈ [0, 128, 192, 224, 240, 248, 252, 254] := by
  decide

theorem cidrMask128_even : ∀ p, p < 128 →
    (CIDRMask p 128).getD 15 0 ∈ [0, 128, 192, 224, 240, 248, 252, 254] := by
  decide

set_option maxRecDepth 100000 in
theorem land_add_one : ∀ m ∈ [0, 128, 192, 224, 240, 248, 252, 254], ∀ y, y ≤ 254 →
    y &&& m = y → (y + 1) &&& m = y := by
  decide

end Net

namespace Utilnet

open Net Spec

/-! ### Big-endian bytes -/

theorem bigOfBytes_append (b : List Nat) (x : Nat) :
    bigOfBytes (b ++ [x]) = bigOfBytes b * 256 + x := by
  simp [bigOfBytes, List.foldl_append]

theorem bigBytesAux_eq (k : Nat) : ∀ m acc, m ≤ k →
    bigBytesAux k m acc = bigBytesAux m m [] ++ acc := by
  induction k using Nat.strong_induction_on with
  | _ k ih =>
    intro m acc hm
    by_cases h0 : m = 0
    · subst h0
      cases k <;> simp [bigBytesAux]
    · obtain ⟨m', rfl⟩ := Nat.exists_eq_succ_of_ne_zero h0
      obtain ⟨k', rfl⟩ := Nat.exists_eq_succ_of_ne_zero (by omega : k ≠ 0)
      have hd : (m' + 1) / 256 ≤ m' := by omega
      simp only [bigBytesAux, h0, if_false]
      rw [ih k' (by omega) _ _ (by omega), ih m' (by omega) _ _ hd]
      simp

theorem bigBytes_zero : bigBytes 0 = [] := rfl

theorem bigBytes_pos (n : Nat) (h : n ≠ 0) :
    bigBytes n = bigBytes (n / 256) ++ [n % 256] := by
  obtain ⟨m, rfl⟩ := Nat.exists_eq_succ_of_ne_zero h
  unfold bigBytes
  simp only [bigBytesAux, h, if_false]
  exact bigBytesAux_eq m _ _ (by omega)

theorem bytesBE_zero (k : Nat) : bytesBE k 0 = List.replicate k 0 := by
  induction k with
  | zero => rfl
  | succ k ih => simp [bytesBE, ih, List.replicate_succ']

theorem addIPOffset_eq_bytesBE (k : Nat) : ∀ n,
    (List.replicate k 0 ++ bigBytes n).drop ((List.replicate k 0 ++ bigBytes n).length - k) =
      bytesBE k n := by
  induction k with
  | zero => intro n; simp [bytesBE]
  | succ k ih =>
    intro n
    by_cases h0 : n = 0
    · subst h0
      simp [bigBytes_zero, bytesBE_zero]
    · have h := ih (n / 256)
      rw [bigBytes_pos n h0]
      simp only [List.length_append, List.length_replicate, List.length_singleton,
        bytesBE] at h ⊢
      rw [← h]
      have e1 : k + 1 + ((bigBytes (n / 256)).length + 1) - (k + 1) =
          (bigBytes (n / 256)).length + 1 := by omega
      have e2 : k + (bigBytes (n / 256)).length - k = (bigBytes (n / 256)).length := by omega
      rw [e1, e2, ← List.append_assoc, List.drop_append_of_le_length (by simp; omega)]
      rw [List.replicate_succ, List.cons_append, List.drop_succ_cons]

theorem addIPOffset_bytesBE (base offset : Nat) :
    addIPOffset base offset = bytesBE 16 (base + offset) := by
  unfold addIPOffset
  exact addIPOffset_eq_bytesBE 16 (base + offset)

theorem bytesBE_length (k : Nat) : ∀ n, (bytesBE k n).length = k := by
  induction k with
  | zero => intro n; rfl
  | succ k ih => intro n; simp [bytesBE, ih]

theorem bytesBE_lt (k : Nat) : ∀ n, ∀ x ∈ bytesBE k n, x < 256 := by
  induction k with
  | zero => intro n x hx; simp [bytesBE] at hx
  | succ k ih =>
    intro n x hx
    simp only [bytesBE, List.mem_append, List.mem_singleton] at hx
    rcases hx with hx | rfl
    · exact ih _ x hx
    · exact Nat.mod_lt _ (by decide)

theorem bigOfBytes_bytesBE (k : Nat) : ∀ n, bigOfBytes (bytesBE k n) = n % 256 ^ k := by
  induction k with
  | zero => intro n; simp [bytesBE, bigOfBytes, Nat.mod_one]
  | succ k ih =>
    intro n
    rw [bytesBE, bigOfBytes_append, ih, pow_succ, Nat.mul_comm (256 ^ k) 256, Nat.mod_mul]
    ring

theorem bytesBE_bigOfBytes (b : List Nat) :
    (∀ x ∈ b, x < 256) → bytesBE b.length (bigOfBytes b) = b := by
  induction b using List.reverseRecOn with
  | nil => intro _; rfl
  | append_singleton b x ih =>
    intro h
    have hx : x < 256 := h x (by simp)
    have hb : ∀ y ∈ b, y < 256 := fun y hy => h y (by simp [hy])
    rw [List.length_append, List.length_singleton, bytesBE, bigOfBytes_append]
    have e1 : (bigOfBytes b * 256 + x) / 256 = bigOfBytes b := by omega
    have e2 : (bigOfBytes b * 256 + x) % 256 = x := by omega
    rw [e1, e2, ih hb]

theorem bigOfBytes_lt (b : List Nat) :
    (∀ x ∈ b, x < 256) → bigOfBytes b < 256 ^ b.length := by
  induction b using List.reverseRecOn with
  | nil => intro _; simp [bigOfBytes]
  | append_singleton b x ih =>
    intro h
    have hx : x < 256 := h x (by simp)
    have hb := ih (fun y hy => h y (by simp [hy]))
    rw [List.length_append, List.length_singleton, bigOfBytes_append, pow_succ]
    omega

/-- Adding the offset 1 never gives back the same bytes. -/
theorem addIPOffset_one_ne (b : List Nat) : addIPOffset (bigOfBytes b) 1 ≠ b := by
  intro h
  have h1 := congrArg bigOfBytes h
  rw [addIPOffset_bytesBE, bigOfBytes_bytesBE] at h1
  by_cases hc : bigOfBytes b + 1 < 256 ^ 16
  · rw [Nat.mod_eq_of_lt hc] at h1
    omega
  · have h2 : (bigOfBytes b + 1) % 256 ^ 16 < 256 ^ 16 := Nat.mod_lt _ (by decide)
    have h3 : bigOfBytes b + 1 = 256 ^ 16 := by omega
    rw [h3, Nat.mod_self] at h1
    omega

theorem addIPOffset_length (base offset : Nat) : (addIPOffset base offset).length = 16 := by
  rw [addIPOffset_bytesBE, bytesBE_length]

theorem addIPOffset_lt (base offset : Nat) : ∀ x ∈ addIPOffset base offset, x < 256 := by
  rw [addIPOffset_bytesBE]
  exact bytesBE_lt 16 _

/-- Without a carry out of the last byte, the offset 1 is added to the last byte. -/
theorem addIPOffset_one_last (b : List Nat) (x : Nat) (hl : b.length = 15)
    (hb : ∀ y ∈ b, y < 256) (hx : x < 255) :
    addIPOffset (bigOfBytes (b ++ [x])) 1 = b ++ [x + 1] := by
  have h := bytesBE_bigOfBytes (b ++ [x + 1]) (by
    intro y hy
    simp only [List.mem_append, List.mem_singleton] at hy
    rcases hy with hy | rfl
    · exact hb y hy
    · omega)
  rw [List.length_append, List.length_singleton, hl, bigOfBytes_append] at h
  rw [addIPOffset_bytesBE, bigOfBytes_append, Nat.add_assoc]
  exact h

/-! ### The address at index 1 of a parsed network -/

theorem GetIndexedIP_one_v4 (net : IPNet) (p : Nat) (h : IsCIDRNet net 32 p) :
    GetIndexedIP net 1 = if p = 32 then none else some (To16 (plusOne net.IP)) := by
  obtain ⟨-, hpb, hmask, raw, hraw, hip⟩ := h
  obtain ⟨hml, -, hmb⟩ := cidrMask32 p hpb
  obtain ⟨m0, m1, m2, m3, hM⟩ := length_four _ hml
  obtain ⟨r0, r1, r2, r3, rfl⟩ := length_four raw hraw
  obtain ⟨ip, mask⟩ := net
  simp only at hip hmask
  rw [hM] at hip hmb hmask
  simp only [List.zipWith_cons_cons, List.zipWith_nil_right] at hip
  simp only [List.all_cons, List.all_nil, Bool.and_true, Bool.and_eq_true,
    decide_eq_true_eq] at hmb
  obtain ⟨hm0, hm1, hm2, hm3⟩ := hmb
  have hy0 : r0 &&& m0 < 256 := Nat.lt_succ_of_le (le_trans Nat.and_le_right hm0)
  have hy1 : r1 &&& m1 < 256 := Nat.lt_succ_of_le (le_trans Nat.and_le_right hm1)
  have hy2 : r2 &&& m2 < 256 := Nat.lt_succ_of_le (le_trans Nat.and_le_right hm2)
  have hy3 : r3 &&& m3 < 256 := Nat.lt_succ_of_le (le_trans Nat.and_le_right hm3)
  subst hip hmask
  have h16 : To16 [r0 &&& m0, r1 &&& m1, r2 &&& m2, r3 &&& m3] =
      v4InV6Lead ++ [r0 &&& m0, r1 &&& m1, r2 &&& m2, r3 &&& m3] := by
    simp [To16, IPv4, IPv4len]
  unfold GetIndexedIP BigForIP
  simp only [h16]
  by_cases hpe : p = 32
  · subst hpe
    rw [cidrMask_full.1] at hM
    simp only [List.cons.injEq, and_true] at hM
    obtain ⟨rfl, rfl, rfl, rfl⟩ := hM
    simp only [if_true]
    have hne := addIPOffset_one_ne
      (v4InV6Lead ++ [r0 &&& 255, r1 &&& 255, r2 &&& 255, r3 &&& 255])
    split_ifs with hc
    · exfalso
      apply hne
      exact Contains_full_four _ _ rfl (addIPOffset_length _ _)
        (by
          intro x hx
          simp only [List.mem_cons, List.mem_singleton, List.not_mem_nil, or_false] at hx
          omega)
        (addIPOffset_lt _ _) hc
    · rfl
  · have hlt : p < 32 := by omega
    have hev := cidrMask32_even p hlt
    rw [hM] at hev
    simp only [List.getD_cons_succ, List.getD_cons_zero] at hev
    have hm3' : m3 ≤ 254 := by
      simp only [List.mem_cons, List.mem_singleton, List.not_mem_nil, or_false] at hev
      omega
    have hy : r3 &&& m3 ≤ 254 := le_trans Nat.and_le_right hm3'
    have hland := land_add_one m3 hev (r3 &&& m3) hy (by rw [Nat.and_assoc, Nat.and_self])
    have hidem : (r3 &&& m3) &&& m3 = r3 &&& m3 := by rw [Nat.and_assoc, Nat.and_self]
    have hoff := addIPOffset_one_last (v4InV6Lead ++ [r0 &&& m0, r1 &&& m1, r2 &&& m2])
      (r3 &&& m3) (by simp [v4InV6Lead]) (by
        intro x hx
        simp only [v4InV6Lead, List.mem_append, List.mem_cons, List.mem_singleton,
          List.not_mem_nil, or_false] at hx
        omega) (by omega)
    simp only [List.append_assoc, List.cons_append, List.nil_append] at hoff
    simp only [List.cons_append, List.nil_append, v4InV6Lead] at hoff ⊢
    rw [hoff]
    have hc := Contains_last_four (r0 &&& m0) (r1 &&& m1) (r2 &&& m2) (r3 &&& m3)
      ((r3 &&& m3) + 1) [m0, m1, m2, m3] rfl
    simp only [v4InV6Lead, List.cons_append, List.nil_append, List.getD_cons_succ,
      List.getD_cons_zero, hland, hidem, beq_self_eq_true] at hc
    simp [hc, hpe, plusOne, To16, IPv4, IPv4len, v4InV6Lead]

theorem zipWith_land_lt : ∀ (raw m : List Nat), (∀ x ∈ m, x ≤ 255) →
    ∀ y ∈ List.zipWith (fun a b => a &&& b) raw m, y < 256 := by
  intro raw
  induction raw with
  | nil => intro m _ y hy; simp at hy
  | cons r rs ih =>
    intro m hm y hy
    cases m with
    | nil => simp at hy
    | cons b bs =>
      simp only [List.zipWith_cons_cons, List.mem_cons] at hy
      rcases hy with rfl | hy
      · exact Nat.lt_succ_of_le (le_trans Nat.and_le_right (hm b (by simp)))
      · exact ih bs (fun x hx => hm x (by simp [hx])) y hy

theorem GetIndexedIP_one_v6 (net : IPNet) (p : Nat) (h : IsCIDRNet net 128 p) :
    GetIndexedIP net 1 = if p = 128 then none else some (To16 (plusOne net.IP)) := by
  obtain ⟨-, hpb, hmask, raw, hraw, hip⟩ := h
  obtain ⟨hml, -, hmb⟩ := cidrMask128 p hpb
  have hmb' : ∀ x ∈ CIDRMask p 128, x ≤ 255 := by
    intro x hx
    have := List.all_eq_true.mp hmb x hx
    simpa using this
  have hyb := zipWith_land_lt raw _ hmb'
  have hyl : (List.zipWith (fun a b => a &&& b) raw (CIDRMask p 128)).length = 16 := by
    simp [hraw, hml]
  obtain ⟨ip, mask⟩ := net
  simp only at hip hmask
  subst hip hmask
  unfold GetIndexedIP BigForIP
  have h16 : To16 (List.zipWith (fun a b => a &&& b) raw (CIDRMask p 128)) =
      List.zipWith (fun a b => a &&& b) raw (CIDRMask p 128) := by
    simp [To16, IPv4len, IPv6len, hyl]
  simp only [h16]
  by_cases hpe : p = 128
  · subst hpe
    simp only [if_true]
    have hne := addIPOffset_one_ne (List.zipWith (fun a b => a &&& b) raw (CIDRMask 128 128))
    split_ifs with hc
    · exfalso
      apply hne
      rw [cidrMask_full.2] at hc hyl hyb ⊢
      exact Contains_full_sixteen _ _ hyl (addIPOffset_length _ _) hyb (addIPOffset_lt _ _) hc
    · rfl
  · have hlt : p < 128 := by omega
    have hev := cidrMask128_even p hlt
    obtain ⟨m0, m1, m2, m3, m4, m5, m6, m7, m8, m9, m10, m11, m12, m13, m14, m15, hM⟩ :=
      length_sixteen _ hml
    obtain ⟨r0, r1, r2, r3, r4, r5, r6, r7, r8, r9, r10, r11, r12, r13, r14, r15, rfl⟩ :=
      length_sixteen raw hraw
    rw [hM] at hev hyb ⊢
    simp only [List.getD_cons_succ, List.getD_cons_zero] at hev
    simp only [List.zipWith_cons_cons, List.zipWith_nil_right] at hyb ⊢
    have hm15 : m15 ≤ 254 := by
      simp only [List.mem_cons, List.mem_singleton, List.not_mem_nil, or_false] at hev
      omega
    have hy : r15 &&& m15 ≤ 254 := le_trans Nat.and_le_right hm15
    have hland := land_add_one m15 hev (r15 &&& m15) hy (by rw [Nat.and_assoc, Nat.and_self])
    have hidem : (r15 &&& m15) &&& m15 = r15 &&& m15 := by rw [Nat.and_assoc, Nat.and_self]
    have hoff := addIPOffset_one_last
      [r0 &&& m0, r1 &&& m1, r2 &&& m2, r3 &&& m3, r4 &&& m4, r5 &&& m5, r6 &&& m6, r7 &&& m7,
        r8 &&& m8, r9 &&& m9, r10 &&& m10, r11 &&& m11, r12 &&& m12, r13 &&& m13, r14 &&& m14]
      (r15 &&& m15) rfl (fun x hx => hyb x (List.mem_append_left [r15 &&& m15] hx))
      (by omega)
    simp only [List.cons_append, List.nil_append] at hoff
    rw [hoff]
    have hc := Contains_last_sixteen (r0 &&& m0) (r1 &&& m1) (r2 &&& m2) (r3 &&& m3)
      (r4 &&& m4) (r5 &&& m5) (r6 &&& m6) (r7 &&& m7) (r8 &&& m8) (r9 &&& m9) (r10 &&& m10)
      (r11 &&& m11) (r12 &&& m12) (r13 &&& m13) (r14 &&& m14) (r15 &&& m15)
      ((r15 &&& m15) + 1)
      [m0, m1, m2, m3, m4, m5, m6, m7, m8, m9, m10, m11, m12, m13, m14, m15] rfl
    simp only [List.getD_cons_succ, List.getD_cons_zero, hland, hidem,
      beq_self_eq_true] at hc
    simp [hc, hpe, plusOne, To16, IPv4len, IPv6len]

theorem GetIndexedIP_one (net : IPNet) (bits p : Nat) (h : IsCIDRNet net bits p) :
    GetIndexedIP net 1 = if p = bits then none else some (To16 (plusOne net.IP)) := by
  rcases h.1 with rfl | rfl
  · exact GetIndexedIP_one_v4 net p h
  · exact GetIndexedIP_one_v6 net p h

theorem IPString_To16 (x : List Nat) (h : x.length = 4 ∨ x.length = 16) :
    IPString (To16 x) = IPString x := by
  rcases h with h | h
  · obtain ⟨a, b, c, d, rfl⟩ := length_four x h
    simp [IPString, To16, To4, IPv4, IPv4len, IPv6len, v4InV6Lead, isZeros]
  · simp [To16, IPv4len, IPv6len, h]

theorem IsCIDRNet_facts (net : IPNet) (bits p : Nat) (h : IsCIDRNet net bits p) :
    MaskSize net.Mask = (p, bits) ∧
    ((bits = 32 ∧ net.IP.length = 4) ∨ (bits = 128 ∧ net.IP.length = 16)) := by
  obtain ⟨hb, hpb, hmask, raw, hraw, hip⟩ := h
  rcases hb with rfl | rfl
  · obtain ⟨hml, hms, -⟩ := cidrMask32 p hpb
    exact ⟨by rw [hmask, hms], Or.inl ⟨rfl, by rw [hip]; simp [hraw, hml]⟩⟩
  · obtain ⟨hml, hms, -⟩ := cidrMask128 p hpb
    exact ⟨by rw [hmask, hms], Or.inr ⟨rfl, by rw [hip]; simp [hraw, hml]⟩⟩

/-- On a network returned by the sloppy parser, `GetIndexedIP` with index 1 gives the
address the specification describes. -/
theorem GetIndexedIP_indexOne (cidr : String) (a : List Nat) (net : IPNet)
    (h : ParseCIDRSloppy cidr = some (a, net)) :
    (GetIndexedIP net 1).map IPString = indexOne cidr := by
  obtain ⟨bits, p, hs⟩ := ParseCIDRWith_shape true cidr a net h
  obtain ⟨hms, hlen⟩ := IsCIDRNet_facts net bits p hs
  have hpl : (plusOne net.IP).length = 4 ∨ (plusOne net.IP).length = 16 := by
    rcases hlen with ⟨-, hl⟩ | ⟨-, hl⟩
    · exact Or.inl (by simpa [plusOne] using hl)
    · exact Or.inr (by simpa [plusOne] using hl)
  unfold indexOne
  rw [h, GetIndexedIP_one net bits p hs]
  simp only [hms]
  split_ifs
  · rfl
  · simp [IPString_To16 _ hpl]

end Utilnet

namespace Net

/-! ### The lenient parser accepts whatever the strict parser accepts -/

theorem parseIPv4Fields_sloppy :
    ∀ (s : List Char) (val dl : Nat) (fields : List Nat) (prev : Option Char) (r : List Nat),
      parseIPv4Fields false s val dl fields prev = some r →
      parseIPv4Fields true s val dl fields prev = some r := by
  intro s
  induction s with
  | nil =>
    intro val dl fields prev r h
    unfold parseIPv4Fields at h ⊢
    exact h
  | cons c cs ih =>
    intro val dl fields prev r h
    unfold parseIPv4Fields at h ⊢
    by_cases hd : isDigit c = true
    · simp only [hd, if_true] at h ⊢
      split_ifs at h ⊢ with a1 a2 a3
      all_goals first
        | exact ih _ _ _ _ _ h
        | (exfalso; simp_all)
    · simp only [hd, Bool.false_eq_true, if_false] at h ⊢
      split_ifs at h ⊢ with h1 h2 h3
      exact ih _ _ _ _ _ h

theorem parseIPv4_sloppy (s : List Char) (r : List Nat) (h : parseIPv4 false s = some r) :
    parseIPv4 true s = some r :=
  parseIPv4Fields_sloppy s 0 0 [] none r h

theorem parseIPv6Loop_sloppy :
    ∀ (k : Nat) (ip : List Nat) (ell : Option Nat) (s : List Char)
      (r : List Nat × Option Nat × List Char),
      parseIPv6Loop false k ip ell s = some r → parseIPv6Loop true k ip ell s = some r := by
  intro k
  induction k with
  | zero =>
    intro ip ell s r h
    unfold parseIPv6Loop at h ⊢
    exact h
  | succ k ih =>
    intro ip ell s r h
    unfold parseIPv6Loop at h ⊢
    rcases hsp : spanHex s 0 0 with ⟨off, acc, rest⟩
    rw [hsp] at h
    simp only at h ⊢
    by_cases h0 : off = 0
    · simp [h0] at h
    · simp only [h0, if_false] at h ⊢
      by_cases h4 : off > 4
      · simp [h4] at h
      · simp only [h4, and_false, if_false, Bool.true_eq_false, false_and] at h ⊢
        by_cases ha : acc > 65535
        · simp [ha] at h
        · simp only [ha, if_false] at h ⊢
          by_cases hdot : rest.head? = some '.'
          · simp only [hdot, if_true] at h ⊢
            split_ifs at h ⊢ with h5 h6
            cases hp : parseIPv4 false s with
            | none => simp [hp] at h
            | some f =>
              rw [parseIPv4_sloppy s f hp]
              simpa [hp] using h
          · simp only [hdot, if_false] at h ⊢
            cases rest with
            | nil => exact h
            | cons c s1 =>
              simp only at h ⊢
              by_cases h7 : c = ':'
              · simp only [h7, ne_eq, not_true_eq_false, if_false] at h ⊢
                cases s1 with
                | nil => exact h
                | cons c1 s2 =>
                  simp only at h ⊢
                  by_cases h8 : c1 = ':'
                  · simp only [h8, if_true] at h ⊢
                    by_cases h9 : ell = none
                    · simp only [h9, ne_eq, not_true_eq_false, if_false] at h ⊢
                      by_cases h10 : s2 = []
                      · simp only [h10, if_true] at h ⊢
                        exact h
                      · simp only [h10, if_false] at h ⊢
                        exact ih _ _ _ _ h
                    · simp [h9] at h
                  · simp only [h8, if_false] at h ⊢
                    exact ih _ _ _ _ h
              · simp [h7] at h

theorem parseIPv6_sloppy (s : List Char) (r : List Nat) (h : parseIPv6 false s = some r) :
    parseIPv6 true s = some r := by
  unfold parseIPv6 at h ⊢
  simp only at h ⊢
  by_cases hlead : decide (List.take 2 s = [':', ':']) = true
  · simp only [hlead, if_true, true_and] at h ⊢
    by_cases he : List.drop 2 s = []
    · simp only [he, if_true] at h ⊢
      exact h
    · simp only [he, if_false] at h ⊢
      cases hl : parseIPv6Loop false 8 [] (some 0) (List.drop 2 s) with
      | none => simp [hl] at h
      | some x =>
        rw [parseIPv6Loop_sloppy _ _ _ _ _ hl]
        rw [hl] at h
        exact h
  · simp only [hlead, Bool.false_eq_true, if_false, false_and] at h ⊢
    cases hl : parseIPv6Loop false 8 [] none s with
    | none => simp [hl] at h
    | some x =>
      rw [parseIPv6Loop_sloppy _ _ _ _ _ hl]
      rw [hl] at h
      exact h

theorem ParseAddr_sloppy (s : List Char) (a : Addr) (h : ParseAddr false s = some a) :
    ParseAddr true s = some a := by
  unfold ParseAddr at h ⊢
  split at h
  · obtain ⟨f, hp, rfl⟩ := Option.map_eq_some'.mp h
    simp [parseIPv4_sloppy s f hp]
  · obtain ⟨f, hp, rfl⟩ := Option.map_eq_some'.mp h
    simp [parseIPv6_sloppy s f hp]
  · cases h

/-- A text that `net.ParseCIDR` accepts is accepted by the lenient parser with the same
result. -/
theorem ParseCIDR_sloppy (s : String) (r : List Nat × IPNet) (h : ParseCIDR s = some r) :
    ParseCIDRSloppy s = some r := by
  unfold ParseCIDR ParseCIDRWith at h
  unfold ParseCIDRSloppy ParseCIDRWith
  dsimp only at h ⊢
  split_ifs at h ⊢ with h0
  generalize List.takeWhile (fun c => decide (c ≠ '/')) s.data = addr at h ⊢
  cases ha : ParseAddr false addr with
  | none => simp [ha] at h
  | some a =>
    rw [ParseAddr_sloppy _ a ha]
    rw [ha] at h
    exact h

end Net

namespace Net

/-! ### The last character of the text of an address -/

theorem oddDigit_digitChar (d : Nat) : Spec.oddDigit (digitChar d) = decide (d % 2 = 1) := by
  have h : ∀ k, k < 10 → Spec.oddDigit (Char.ofNat (48 + k)) = decide (k % 2 = 1) := by decide
  have h2 : d % 10 % 2 = d % 2 := by omega
  unfold digitChar
  rw [h (d % 10) (Nat.mod_lt _ (by decide)), h2]

theorem oddDigit_hexChar (d : Nat) : Spec.oddDigit (hexChar d) = decide (d % 2 = 1) := by
  have h : ∀ k, k < 16 → Spec.oddDigit (hexChar k) = decide (k % 2 = 1) := by decide
  have h2 : d % 16 % 2 = d % 2 := by omega
  have h3 : hexChar d = hexChar (d % 16) := by simp [hexChar]
  rw [h3, h (d % 16) (Nat.mod_lt _ (by decide)), h2]

theorem appendDecimal_getLast (x : Nat) :
    (appendDecimal x).getLast? = some (digitChar (x % 10)) := by
  unfold appendDecimal
  simp

theorem appendHex_getLast (x : Nat) : (appendHex x).getLast? = some (hexChar (x % 16)) := by
  unfold appendHex
  simp

theorem getLast?_cons_of {α : Type} (a : α) (l : List α) (x : α) (h : l.getLast? = some x) :
    (a :: l).getLast? = some x := by
  cases l with
  | nil => simp at h
  | cons b l => rw [List.getLast?_cons_cons]; exact h

theorem getLast?_append_of {α : Type} (l l' : List α) (x : α) (h : l'.getLast? = some x) :
    (l ++ l').getLast? = some x := by
  simp [List.getLast?_append, h]

theorem string4_getLast (p : List Nat) :
    (string4 p).getLast? = some (digitChar (p.getD 3 0 % 10)) := by
  unfold string4
  exact getLast?_append_of _ _ _ (getLast?_cons_of _ _ _ (appendDecimal_getLast _))

theorem takeWhile_zero_length (l : List Nat) (x : Nat) (hx : x ≠ 0) :
    ((l ++ [x]).takeWhile (· == 0)).length ≤ l.length := by
  induction l with
  | nil => simp [List.takeWhile_cons, hx]
  | cons a l ih =>
    by_cases ha : a = 0
    · simp only [List.cons_append, List.takeWhile_cons, ha, beq_self_eq_true, if_true,
        List.length_cons]
      omega
    · simp [List.takeWhile_cons, ha]

theorem length_eight {α : Type} (l : List α) (h : l.length = 8) :
    ∃ a0 a1 a2 a3 a4 a5 a6 a7, l = [a0, a1, a2, a3, a4, a5, a6, a7] := by
  match l, h with
  | [a0, a1, a2, a3, a4, a5, a6, a7], _ => exact ⟨a0, a1, a2, a3, a4, a5, a6, a7, rfl⟩

theorem zeroRun_le (g : List Nat) (hg : g.length = 8) (h7 : g.getD 7 0 ≠ 0) (i : Nat)
    (hi : i < 8) : i + zeroRun g i ≤ 7 := by
  obtain ⟨a0, a1, a2, a3, a4, a5, a6, a7, rfl⟩ := length_eight g hg
  simp only [List.getD_cons_succ, List.getD_cons_zero] at h7
  unfold zeroRun
  interval_cases i
  · have := takeWhile_zero_length [a0, a1, a2, a3, a4, a5, a6] a7 h7
    simpa using this
  · have := takeWhile_zero_length [a1, a2, a3, a4, a5, a6] a7 h7
    simp only [List.drop_succ_cons, List.drop_zero]
    simp only [List.cons_append, List.nil_append, List.length_cons, List.length_nil] at this
    omega
  · have := takeWhile_zero_length [a2, a3, a4, a5, a6] a7 h7
    simp only [List.drop_succ_cons, List.drop_zero]
    simp only [List.cons_append, List.nil_append, List.length_cons, List.length_nil] at this
    omega
  · have := takeWhile_zero_length [a3, a4, a5, a6] a7 h7
    simp only [List.drop_succ_cons, List.drop_zero]
    simp only [List.cons_append, List.nil_append, List.length_cons, List.length_nil] at this
    omega
  · have := takeWhile_zero_length [a4, a5, a6] a7 h7
    simp only [List.drop_succ_cons, List.drop_zero]
    simp only [List.cons_append, List.nil_append, List.length_cons, List.length_nil] at this
    omega
  · have := takeWhile_zero_length [a5, a6] a7 h7
    simp only [List.drop_succ_cons, List.drop_zero]
    simp only [List.cons_append, List.nil_append, List.length_cons, List.length_nil] at this
    omega
  · have := takeWhile_zero_length [a6] a7 h7
    simp only [List.drop_succ_cons, List.drop_zero]
    simp only [List.cons_append, List.nil_append, List.length_cons, List.length_nil] at this
    omega
  · have := takeWhile_zero_length [] a7 h7
    simp only [List.drop_succ_cons, List.drop_zero]
    simp only [List.nil_append, List.length_nil] at this
    omega

/-- The span found by the first loop of `AppendTo6`: none, or a run of at least two zero
groups that starts before group 8. -/
theorem zeroSpan_cases (g : List Nat) :
    zeroSpan g = (255, 255) ∨
    ∃ i, i < 8 ∧ zeroSpan g = (i, i + zeroRun g i) ∧ 2 ≤ zeroRun g i := by
  have step : ∀ (l : List Nat), (∀ i ∈ l, i < 8) → ∀ z : Nat × Nat,
      (z = (255, 255) ∨ ∃ i, i < 8 ∧ z = (i, i + zeroRun g i) ∧ 2 ≤ zeroRun g i) →
      (l.foldl (fun z i => if zeroRun g i ≥ 2 ∧ zeroRun g i > z.2 - z.1
          then (i, i + zeroRun g i) else z) z = (255, 255) ∨
        ∃ i, i < 8 ∧ l.foldl (fun z i => if zeroRun g i ≥ 2 ∧ zeroRun g i > z.2 - z.1
          then (i, i + zeroRun g i) else z) z = (i, i + zeroRun g i) ∧ 2 ≤ zeroRun g i) := by
    intro l
    induction l with
    | nil => intro _ z hz; simpa using hz
    | cons a l ih =>
      intro hl z hz
      simp only [List.foldl_cons]
      apply ih (fun i hi => hl i (List.mem_cons_of_mem _ hi))
      split_ifs with hc
      · exact Or.inr ⟨a, hl a (List.mem_cons_self _ _), rfl, hc.1⟩
      · exact hz
  unfold zeroSpan
  exact step (List.range 8) (fun i hi => List.mem_range.mp hi) (255, 255) (Or.inl rfl)

/-- The last character written by the second loop of `AppendTo6`: a colon when the zero
span reaches the end and has not been passed yet, otherwise the last hexadecimal digit of
the last group. -/
theorem appendGroups_getLast (g : List Nat) (zs ze : Nat) (hz : zs < ze ∨ 8 ≤ zs) :
    ∀ k i, i ≤ 7 → 8 - i ≤ k →
      (appendGroups g zs ze k i).getLast? =
        if i ≤ zs ∧ zs ≤ 7 ∧ 8 ≤ ze then some ':' else some (hexChar (g.getD 7 0 % 16)) := by
  intro k
  induction k using Nat.strong_induction_on with
  | _ k ih =>
    intro i hi hk
    obtain ⟨k', rfl⟩ : ∃ k', k = k' + 1 := ⟨k - 1, by omega⟩
    unfold appendGroups
    have hi8 : ¬ i ≥ 8 := by omega
    rw [if_neg hi8]
    have hnil : ∀ zs1 ze1 k1, appendGroups g zs1 ze1 k1 (7 + 1) = [] := by
      intro zs1 ze1 k1
      cases k1 with
      | zero => rfl
      | succ k2 => simp [appendGroups]
    by_cases hzs : i = zs
    · rw [if_pos hzs]
      by_cases hze : ze ≥ 8
      · rw [if_pos hze, if_pos ⟨by omega, by omega, hze⟩]
        rfl
      · rw [if_neg hze, if_neg (fun h => hze h.2.2)]
        refine getLast?_cons_of _ _ _ (getLast?_cons_of _ _ _ ?_)
        by_cases h7 : ze = 7
        · subst h7
          rw [hnil, List.append_nil]
          exact appendHex_getLast _
        · have hrec := ih k' (by omega) (ze + 1) (by omega) (by omega)
          rw [if_neg (fun h => hze h.2.2)] at hrec
          exact getLast?_append_of _ _ _ hrec
    · rw [if_neg hzs]
      by_cases h7 : i = 7
      · subst h7
        have hc7 : ¬ (7 ≤ zs ∧ zs ≤ 7 ∧ 8 ≤ ze) := fun h => hzs (by omega)
        rw [hnil, List.append_nil, if_neg hc7]
        exact getLast?_append_of _ _ _ (appendHex_getLast _)
      · have hrec := ih k' (by omega) (i + 1) (by omega) (by omega)
        by_cases hc : i ≤ zs ∧ zs ≤ 7 ∧ 8 ≤ ze
        · rw [if_pos ⟨by omega, hc.2.1, hc.2.2⟩] at hrec
          rw [if_pos hc]
          exact getLast?_append_of _ _ _ hrec
        · rw [if_neg (fun h => hc ⟨by omega, h.2.1, h.2.2⟩)] at hrec
          rw [if_neg hc]
          exact getLast?_append_of _ _ _ hrec

/-- The text of a 16-byte address written in groups ends in an odd digit exactly when the
last byte is odd. -/
theorem string6_getLast (ip : List Nat) :
    ∃ c, (string6 ip).getLast? = some c ∧
      Spec.oddDigit c = decide (ip.getD 15 0 % 2 = 1) := by
  have hg : (groups16 ip).length = 8 := by simp [groups16]
  have hg7 : (groups16 ip).getD 7 0 = ip.getD 14 0 * 256 + ip.getD 15 0 := rfl
  have hhex : Spec.oddDigit (hexChar ((groups16 ip).getD 7 0 % 16)) =
      decide (ip.getD 15 0 % 2 = 1) := by
    rw [oddDigit_hexChar, hg7]
    have : (ip.getD 14 0 * 256 + ip.getD 15 0) % 16 % 2 = ip.getD 15 0 % 2 := by omega
    rw [this]
  unfold string6
  dsimp only
  rcases zeroSpan_cases (groups16 ip) with h | ⟨i, hi, h, h2⟩
  · rw [h]
    have := appendGroups_getLast (groups16 ip) 255 255 (Or.inr (by omega)) 8 0 (by omega)
      (by omega)
    rw [if_neg (by omega)] at this
    exact ⟨_, this, hhex⟩
  · rw [h]
    have := appendGroups_getLast (groups16 ip) i (i + zeroRun (groups16 ip) i)
      (Or.inl (by omega)) 8 0 (by omega) (by omega)
    by_cases hc : 0 ≤ i ∧ i ≤ 7 ∧ 8 ≤ i + zeroRun (groups16 ip) i
    · rw [if_pos hc] at this
      refine ⟨_, this, ?_⟩
      have h0 : (groups16 ip).getD 7 0 = 0 := by
        by_contra hne
        have := zeroRun_le (groups16 ip) hg hne i hi
        omega
      rw [hg7] at h0
      have h15 : ip.getD 15 0 = 0 := by omega
      rw [h15]
      decide
    · rw [if_neg hc] at this
      exact ⟨_, this, hhex⟩

/-- The text of an address of 4 or of 16 bytes ends in an odd digit exactly when the last
byte of the address is odd. -/
theorem IPString_getLast (ip : List Nat) (h : ip.length = 4 ∨ ip.length = 16) :
    ∃ c, (IPString ip).data.getLast? = some c ∧
      Spec.oddDigit c = decide (ip.getD (ip.length - 1) 0 % 2 = 1) := by
  have hdec : ∀ x : Nat, Spec.oddDigit (digitChar (x % 10)) = decide (x % 2 = 1) := by
    intro x
    rw [oddDigit_digitChar]
    have : x % 10 % 2 = x % 2 := by omega
    rw [this]
  rcases h with h | h
  · have hs : IPString ip = String.mk (string4 ip) := by
      unfold IPString
      simp [h, To4, IPv4len, IPv6len]
    rw [hs, h]
    exact ⟨_, string4_getLast ip, hdec _⟩
  · by_cases h4 : (To4 ip).length = IPv4len
    · have hs : IPString ip = String.mk (string4 (To4 ip)) := by
        unfold IPString
        simp [h, h4, IPv4len, IPv6len]
      have ht : To4 ip = ip.drop 12 := by
        unfold To4 at h4 ⊢
        split_ifs at h4 ⊢ with h1 h2
        · simp [IPv4len, h] at h1
        · rfl
        · simp [IPv4len] at h4
      rw [hs, h, ht]
      refine ⟨_, string4_getLast _, ?_⟩
      rw [hdec]
      obtain ⟨a0, a1, a2, a3, a4, a5, a6, a7, a8, a9, a10, a11, a12, a13, a14, a15, rfl⟩ :=
        length_sixteen ip h
      rfl
    · have hs : IPString ip = String.mk (string6 ip) := by
        unfold IPString
        rw [if_neg (by omega), if_neg (by simp [h, IPv6len]), if_neg h4]
      rw [hs, h]
      exact string6_getLast ip

/-- A network with a prefix shorter than its addresses has an even last byte. -/
theorem IsCIDRNet_last_even (net : IPNet) (bits p : Nat) (h : Spec.IsCIDRNet net bits p)
    (hp : p ≠ bits) : net.IP.getD (net.IP.length - 1) 0 % 2 = 0 := by
  have hev : ∀ m ∈ [0, 128, 192, 224, 240, 248, 252, 254], m &&& 1 = 0 := by decide
  have hland : ∀ r m : Nat, m &&& 1 = 0 → (r &&& m) % 2 = 0 := by
    intro r m hm
    have := Nat.and_pow_two_sub_one_eq_mod (r &&& m) 1
    simp only [Nat.pow_one, Nat.add_one_sub_one] at this
    rw [← this, Nat.land_assoc, hm]
    simp
  obtain ⟨hb, hpb, hmask, raw, hraw, hip⟩ := h
  rcases hb with rfl | rfl
  · obtain ⟨hml, -, -⟩ := cidrMask32 p hpb
    have hm3 := cidrMask32_even p (by omega)
    obtain ⟨r0, r1, r2, r3, rfl⟩ := length_four raw hraw
    obtain ⟨m0, m1, m2, m3, hm⟩ := length_four _ hml
    rw [hm] at hip hm3
    rw [hip]
    exact hland _ _ (hev _ hm3)
  · obtain ⟨hml, -, -⟩ := cidrMask128 p hpb
    have hm15 := cidrMask128_even p (by omega)
    obtain ⟨r0, r1, r2, r3, r4, r5, r6, r7, r8, r9, r10, r11, r12, r13, r14, r15, rfl⟩ :=
      length_sixteen raw hraw
    obtain ⟨m0, m1, m2, m3, m4, m5, m6, m7, m8, m9, m10, m11, m12, m13, m14, m15, hm⟩ :=
      length_sixteen _ hml
    rw [hm] at hip hm15
    rw [hip]
    exact hland _ _ (hev _ hm15)

/-- The assignment to byte 3 of the slice `To4` or `To16` of an address of 4 or of 16 bytes
leaves the parity of the last byte of what the slice shows as it is, when the value stored
has the parity of the byte it replaces. -/
theorem store_load_last (ip : List Nat) (hl : ip.length = 4 ∨ ip.length = 16) (r : IPRef)
    (hr : r = To4Ref ip ∨ r = To16Ref ip) (v : Nat)
    (hv : v % 2 = (r.load ip).getD 3 0 % 2) (ip1 : List Nat) (r1 : IPRef)
    (hs : r.store ip 3 v = some (ip1, r1)) :
    ((r1.load ip1).length = 4 ∨ (r1.load ip1).length = 16) ∧
    (r1.load ip1).getD ((r1.load ip1).length - 1) 0 % 2 = ip.getD (ip.length - 1) 0 % 2 := by
  rcases hl with hl | hl
  · obtain ⟨a, b, c, d, rfl⟩ := length_four ip hl
    rcases hr with rfl | rfl
    · simp only [To4Ref, IPv4len, List.length_cons, List.length_nil, if_true, IPRef.store,
        IPRef.load] at hs hv
      simp only [Nat.reduceAdd, Nat.lt_add_one, List.drop_zero, if_true, Option.some.injEq,
        Prod.mk.injEq] at hs hv
      obtain ⟨rfl, rfl⟩ := hs
      simp only [IPRef.load]
      exact ⟨Or.inl rfl, hv⟩
    · simp only [To16Ref, IPv4len, IPv4, v4InV6Lead, List.length_cons, List.length_nil,
        if_true, IPRef.store, IPRef.load] at hs hv
      simp only [Nat.reduceAdd, List.cons_append, List.nil_append, List.length_cons,
        List.length_nil, Nat.reduceLT, if_true, Option.some.injEq, Prod.mk.injEq] at hs
      obtain ⟨rfl, rfl⟩ := hs
      simp only [IPRef.load]
      exact ⟨Or.inr rfl, rfl⟩
  · obtain ⟨a0, a1, a2, a3, a4, a5, a6, a7, a8, a9, a10, a11, a12, a13, a14, a15, rfl⟩ :=
      length_sixteen ip hl
    rcases hr with rfl | rfl
    · unfold To4Ref at hs hv
      split_ifs at hs hv with h1 h2
      · simp [IPv4len] at h1
      · simp only [IPRef.store, IPRef.load] at hs hv
        simp only [Nat.reduceLT, if_true, Option.some.injEq, Prod.mk.injEq] at hs
        obtain ⟨rfl, rfl⟩ := hs
        simp only [IPRef.load]
        exact ⟨Or.inl rfl, hv⟩
      · simp [IPRef.store] at hs
    · simp only [To16Ref, IPv4len, IPv6len, List.length_cons, List.length_nil, IPRef.store,
        IPRef.load] at hs hv
      simp only [Nat.reduceAdd, Nat.reduceEqDiff, if_false, if_true, Nat.reduceLT,
        Option.some.injEq, Prod.mk.injEq] at hs
      obtain ⟨rfl, rfl⟩ := hs
      simp only [IPRef.load]
      exact ⟨Or.inr rfl, rfl⟩

end Net

namespace Network

open Net

/-! ### Small facts about lists and paths -/

theorem ite_append_right {α : Type} (c : Prop) [Decidable c] (l x : List α) :
    (if c then l ++ x else l) = l ++ (if c then x else []) := by
  split <;> simp

theorem newPath_single (name : String) : Field.NewPath name [] = name := rfl

theorem newPath_calico_mode : Field.NewPath "calico" ["mode"] = "calico.mode" := by decide

theorem newPath_v6pod :
    Field.NewPath "dualStack" ["IPv6podCIDR"] = "dualStack.IPv6podCIDR" := by decide

theorem newPath_v6service :
    Field.NewPath "dualStack" ["IPv6serviceCIDR"] = "dualStack.IPv6serviceCIDR" := by decide

/-- C4. For a non-nil configuration in which `Calico`, `KubeProxy` and `KubeRouter` are all
present, and whose kube-proxy validation returns `es`, `Validate` returns exactly the list
of the specification: the provider error, the `podCIDR`, `serviceCIDR` and `clusterDomain`
errors, under dual stack the `calico.mode`, `IPv6podCIDR` and `IPv6serviceCIDR` errors, then
`es` unchanged, each entry present exactly when its own check fails. -/
theorem Validate_eq_expectedErrors (env : Env) (n : Network) (c : K0s.Calico)
    (kp : K0s.KubeProxy) (kr : K0s.KubeRouter) (es : List Err) (hc : n.Calico = some c)
    (hkp : n.KubeProxy = some kp) (_hkr : n.KubeRouter = some kr)
    (hes : env.KubeProxyValidate (some kp) = .ret es) :
    Validate env (some n) = .ret (Spec.expectedErrors n c es) := by
  unfold Validate Spec.expectedErrors
  simp only [hkp, hes, newPath_single, List.nil_append, Option.isNone_iff_eq_none,
    Bool.not_eq_true', ite_append_right]
  by_cases hd : n.DualStack.Enabled = true
  · unfold validateDualStack calicoModeNotBird
    simp only [hd, if_true, hc, newPath_calico_mode, newPath_v6pod, newPath_v6service,
      Option.isNone_iff_eq_none, ite_append_right]
    by_cases hp : n.Provider = "calico"
    · have h1 : n.Provider ≠ "" := by rw [hp]; decide
      by_cases hm : c.Mode = "bird" <;>
        simp [hp, hm, ite_append_right]
    · by_cases h1 : n.Provider = ""
      · simp [hp, h1, ite_append_right]
      · by_cases h2 : n.Provider = "custom" <;> by_cases h3 : n.Provider = "kuberouter" <;>
          simp [hp, h1, h2, h3, ite_append_right]
  · simp only [hd, if_false, Bool.false_eq_true]
    by_cases h1 : n.Provider = ""
    · simp [h1]
    · by_cases hp : n.Provider = "calico" <;> by_cases h2 : n.Provider = "custom" <;>
        by_cases h3 : n.Provider = "kuberouter" <;>
        simp [hp, h1, h2, h3]

theorem Validate_eq_expectedErrors_witness :
    Validate Sample.env (some Sample.dualStackCalico) =
      .ret (Spec.expectedErrors Sample.dualStackCalico { Mode := "bird", settings := 0 } []) :=
  Validate_eq_expectedErrors Sample.env Sample.dualStackCalico _ _ _ _ rfl rfl rfl rfl

/-- C5. When `Validate` returns the empty list, `PodCIDR` and `ServiceCIDR` parse, the
provider is calico, kuberouter or custom, the cluster domain is a DNS name, and under dual
stack both IPv6 CIDRs parse and a calico provider has a `Calico` block in mode `bird`. -/
theorem Validate_nil_sound (env : Env) (n : Network) (h : Validate env (some n) = .ret []) :
    (ParseCIDR n.PodCIDR).isSome ∧ (ParseCIDR n.ServiceCIDR).isSome ∧
    n.Provider ∈ ["calico", "kuberouter", "custom"] ∧
    Govalidator.IsDNSName n.ClusterDomain = true ∧
    (n.DualStack.Enabled = true →
      (ParseCIDR n.DualStack.IPv6PodCIDR).isSome ∧
      (ParseCIDR n.DualStack.IPv6ServiceCIDR).isSome ∧
      (n.Provider = "calico" → ∃ c, n.Calico = some c ∧ c.Mode = "bird")) := by
  unfold Validate at h
  simp only [newPath_single, List.nil_append, Option.isNone_iff_eq_none,
    Bool.not_eq_true', ite_append_right] at h
  cases hd : n.DualStack.Enabled
  · rw [hd] at h
    cases hk : env.KubeProxyValidate n.KubeProxy with
    | panic m => simp [hk] at h
    | ret es =>
      simp only [hk, Bool.false_eq_true, if_false, Go.ret.injEq, List.append_eq_nil] at h
      obtain ⟨⟨⟨⟨h1, h2⟩, h3⟩, h4⟩, -⟩ := h
      by_cases hp : n.Provider = ""
      · simp [hp] at h1
      · simp only [hp, if_false] at h1
        refine ⟨?_, ?_, ?_, ?_, by simp⟩
        · by_contra hc; simp at hc; simp [hc] at h2
        · by_contra hc; simp at hc; simp [hc] at h3
        · by_contra hc; simp at hc; simp [hc] at h1
        · by_contra hc; simp at hc; simp [hc] at h4
  · rw [hd] at h
    unfold validateDualStack at h
    simp only [if_true, newPath_calico_mode, newPath_v6pod, newPath_v6service,
      Option.isNone_iff_eq_none, ite_append_right] at h
    cases hg : calicoModeNotBird n with
    | panic m => simp [hg] at h
    | ret b =>
      cases hk : env.KubeProxyValidate n.KubeProxy with
      | panic m => simp [hg, hk] at h
      | ret es =>
        simp only [hg, hk, Go.ret.injEq, List.append_eq_nil] at h
        obtain ⟨⟨⟨⟨⟨⟨⟨h1, h2⟩, h3⟩, h4⟩, h5⟩, h6⟩, h7⟩, -⟩ := h
        by_cases hp : n.Provider = ""
        · simp [hp] at h1
        · simp only [hp, if_false] at h1
          refine ⟨?_, ?_, ?_, ?_, fun _ => ⟨?_, ?_, ?_⟩⟩
          · by_contra hc; simp at hc; simp [hc] at h2
          · by_contra hc; simp at hc; simp [hc] at h3
          · by_contra hc; simp at hc; simp [hc] at h1
          · by_contra hc; simp at hc; simp [hc] at h4
          · by_contra hc; simp at hc; simp [hc] at h6
          · by_contra hc; simp at hc; simp [hc] at h7
          · intro hcal
            unfold calicoModeNotBird at hg
            rw [if_pos hcal] at hg
            cases hcb : n.Calico with
            | none => simp [hcb] at hg
            | some c =>
              refine ⟨c, rfl, ?_⟩
              simp only [hcb, Go.ret.injEq] at hg
              by_contra hm
              simp [hm] at hg
              simp [← hg] at h5

theorem Validate_nil_sound_witness :
    (ParseCIDR "10.244.0.0/16").isSome ∧ (ParseCIDR "10.96.0.0/12").isSome ∧
    "calico" ∈ ["calico", "kuberouter", "custom"] ∧
    Govalidator.IsDNSName "cluster.local" = true ∧
    (Sample.dualStackCalico.DualStack.Enabled = true →
      (ParseCIDR "fd00::/108").isSome ∧ (ParseCIDR "fd01::/108").isSome ∧
      (Sample.dualStackCalico.Provider = "calico" →
        ∃ c, Sample.dualStackCalico.Calico = some c ∧ c.Mode = "bird")) :=
  Validate_nil_sound Sample.env Sample.dualStackCalico (by decide)

/-- The defaulting pass leaves the provider as decoded. -/
theorem applyDefaults_provider (env : Env) (n : Network) :
    (applyDefaults env n).Provider = n.Provider := by
  unfold applyDefaults
  split_ifs <;> (dsimp only; split <;> rfl)

/-- The `Calico` block after the defaulting pass. -/
theorem applyDefaults_Calico (env : Env) (n : Network) :
    (applyDefaults env n).Calico =
      if n.Provider = "calico" ∧ n.Calico = none then some env.DefaultCalico
      else if n.Provider = "kuberouter" ∧ n.KubeRouter = none then none
      else n.Calico := by
  unfold applyDefaults
  split_ifs <;> (dsimp only; split <;> rfl)

/-- The `KubeRouter` block after the defaulting pass. -/
theorem applyDefaults_KubeRouter (env : Env) (n : Network) :
    (applyDefaults env n).KubeRouter =
      if n.Provider = "calico" ∧ n.Calico = none then none
      else if n.Provider = "kuberouter" ∧ n.KubeRouter = none then some env.DefaultKubeRouter
      else n.KubeRouter := by
  unfold applyDefaults
  split_ifs <;> (dsimp only; split <;> rfl)

/-- C6, as found in the code. Loading a document with provider calico that carries both a
calico and a kuberouter block leaves both blocks present, so `KubeRouter` is present
although the provider is not kuberouter. -/
theorem UnmarshalJSON_keeps_both_blocks :
    ∃ n', UnmarshalJSON Sample.env Sample.zero Sample.docBothBlocks = .ok n' ∧
      n'.Provider = "calico" ∧ n'.Calico.isSome = true ∧ n'.KubeRouter.isSome = true ∧
      ¬ Spec.providerBlocksMatch n' :=
  ⟨_, rfl, rfl, rfl, rfl, fun h => absurd (h.2.1 rfl) (by decide)⟩

/-- C6, amended. After the defaulting pass a calico provider has a `Calico` block and a
kuberouter provider has a `KubeRouter` block; the blocks match the provider in both
directions exactly when the decoded configuration did not hold both blocks at once and,
for any other provider, held neither. -/
theorem applyDefaults_provider_blocks (env : Env) (n : Network) :
    (n.Provider = "calico" → (applyDefaults env n).Calico.isSome = true) ∧
    (n.Provider = "kuberouter" → (applyDefaults env n).KubeRouter.isSome = true) ∧
    (Spec.providerBlocksMatch (applyDefaults env n) ↔
      (¬ (n.Calico.isSome = true ∧ n.KubeRouter.isSome = true) ∧
       (n.Provider ≠ "calico" → n.Provider ≠ "kuberouter" →
          n.Calico = none ∧ n.KubeRouter = none))) := by
  have hne : ("calico" : String) ≠ "kuberouter" := by decide
  unfold Spec.providerBlocksMatch
  rw [applyDefaults_Calico, applyDefaults_KubeRouter, applyDefaults_provider]
  by_cases hp : n.Provider = "calico"
  · have hk : n.Provider ≠ "kuberouter" := by rw [hp]; exact hne
    cases hc : n.Calico <;> cases hr : n.KubeRouter <;> simp [hp, hne]
  · by_cases hk : n.Provider = "kuberouter"
    · cases hc : n.Calico <;> cases hr : n.KubeRouter <;> simp [hk, hne.symm]
    · cases hc : n.Calico <;> cases hr : n.KubeRouter <;> simp [hp, hk]

/-- C3. When `ServiceCIDR` is an IPv4 CIDR with prefix length at most 28, `DNSAddress`
succeeds and returns the text of the network address with 10 added to its last octet; the
addition does not leave the octet, the result lies in the block, and its 32-bit value is
that of the network address plus 10. -/
theorem DNSAddress_ipv4_tenth (n : Network) (a : List Nat) (ipnet : IPNet)
    (h : ParseCIDR n.ServiceCIDR = some (a, ipnet)) (h4 : ipnet.IP.length = 4)
    (hp : (MaskSize ipnet.Mask).1 ≤ 28) :
    ∃ b0 b1 b2 b3, ipnet.IP = [b0, b1, b2, b3] ∧
      b0 ≤ 255 ∧ b1 ≤ 255 ∧ b2 ≤ 255 ∧ b3 + 10 ≤ 255 ∧
      DNSAddress n = .ret (.ok (IPString [b0, b1, b2, b3 + 10])) ∧
      Contains ipnet [b0, b1, b2, b3 + 10] = true ∧
      Spec.ipv4Value [b0, b1, b2, b3 + 10] = Spec.ipv4Value ipnet.IP + 10 := by
  obtain ⟨bits, p, hb, hpb, hmask, raw, hraw, hip⟩ := ParseCIDRWith_shape false _ _ _ h
  rcases hb with rfl | rfl
  swap
  · rw [hip] at h4
    simp [hraw, (cidrMask128 p hpb).1] at h4
  obtain ⟨hml, hms, hmb⟩ := cidrMask32 p hpb
  rw [hmask, hms] at hp
  simp only at hp
  have hlast := cidrMask32_last_byte p hp
  obtain ⟨m0, m1, m2, m3, hM⟩ := length_four _ hml
  obtain ⟨r0, r1, r2, r3, rfl⟩ := length_four raw hraw
  rw [hM] at hip hmb hlast
  simp only [List.zipWith_cons_cons, List.zipWith_nil_right] at hip
  simp only [List.all_cons, List.all_nil, Bool.and_true, Bool.and_eq_true,
    decide_eq_true_eq] at hmb
  simp only [List.getD_cons_succ, List.getD_cons_zero] at hlast
  obtain ⟨hm0, hm1, hm2, hm3⟩ := hmb
  have hm3' : m3 ≤ 240 := by
    simp only [List.mem_cons, List.mem_singleton, List.not_mem_nil, or_false] at hlast
    omega
  have hy : r3 &&& m3 ≤ 240 := le_trans Nat.and_le_right hm3'
  have hland := land_add_ten m3 hlast (r3 &&& m3) hy (by rw [Nat.and_assoc, Nat.and_self])
  refine ⟨r0 &&& m0, r1 &&& m1, r2 &&& m2, r3 &&& m3, hip,
    le_trans Nat.and_le_right hm0, le_trans Nat.and_le_right hm1,
    le_trans Nat.and_le_right hm2, by omega, ?_, ?_, ?_⟩
  · unfold DNSAddress
    rw [h]
    simp only [IsIPv6String_of_length_four _ h4, Bool.false_eq_true, if_false, hmask, hms]
    rw [hip]
    have hlt : (r3 &&& m3) + 10 < 256 := by omega
    have hself := Contains_self_of_length_four
      [r0 &&& m0, r1 &&& m1, r2 &&& m2, (r3 &&& m3) + 10] (CIDRMask p 32) rfl hml
    simp [To4Ref, IPv4len, IPRef.load, IPRef.store, Nat.mod_eq_of_lt hlt, hself,
      show p < 29 by omega]
  · have hidem : (r3 &&& m3) &&& m3 = r3 &&& m3 := by rw [Nat.and_assoc, Nat.and_self]
    unfold Contains networkNumberAndMask
    rw [hip, hmask, hM]
    simp [To4, IPv4len, IPv6len, List.range_succ, hland, hidem]
  · rw [hip]
    simp only [Spec.ipv4Value, List.getD_cons_succ, List.getD_cons_zero]
    ring

theorem DNSAddress_ipv4_tenth_witness :
    ParseCIDR (Sample.withServiceCIDR "10.96.0.0/12").ServiceCIDR =
      some (IPv4 10 96 0 0, { IP := [10, 96, 0, 0], Mask := [255, 240, 0, 0] }) ∧
    DNSAddress (Sample.withServiceCIDR "10.96.0.0/12") = .ret (.ok "10.96.0.10") := by
  have hparse : ParseCIDR (Sample.withServiceCIDR "10.96.0.0/12").ServiceCIDR =
      some (IPv4 10 96 0 0, { IP := [10, 96, 0, 0], Mask := [255, 240, 0, 0] }) := by decide
  obtain ⟨b0, b1, b2, b3, hip, -, -, -, -, hD, -, -⟩ :=
    DNSAddress_ipv4_tenth (Sample.withServiceCIDR "10.96.0.0/12") _ _ hparse
      (by decide) (by decide)
  simp only [List.cons.injEq, and_true] at hip
  obtain ⟨rfl, rfl, rfl, rfl⟩ := hip
  exact ⟨hparse, hD⟩

/-- For every IPv4 service CIDR, whatever its prefix length, `DNSAddress` returns an
address and no error: the network address with 10 or 2 added (modulo 256) to its last
byte.  The guard `ipnet.Contains(address)` holds on every such run. -/
theorem DNSAddress_of_length_four (n : Network) (a : List Nat) (ipnet : IPNet)
    (h : ParseCIDR n.ServiceCIDR = some (a, ipnet)) (h4 : ipnet.IP.length = 4) :
    DNSAddress n = .ret (.ok (IPString (ipnet.IP.set 3
      ((ipnet.IP.getD 3 0 + (if (MaskSize ipnet.Mask).1 < 29 then 10 else 2)) % 256)))) := by
  obtain ⟨bits, p, hs⟩ := ParseCIDRWith_shape false _ _ _ h
  obtain ⟨-, hlen⟩ := Utilnet.IsCIDRNet_facts ipnet bits p hs
  have hb : bits = 32 := by
    rcases hlen with ⟨hb, -⟩ | ⟨-, hl⟩
    · exact hb
    · omega
  subst hb
  obtain ⟨-, hpb, hmask, -⟩ := hs
  have hml : ipnet.Mask.length = 4 := by rw [hmask]; exact (cidrMask32 p hpb).1
  obtain ⟨b0, b1, b2, b3, hip⟩ := length_four _ h4
  unfold DNSAddress
  rw [h]
  simp only [IsIPv6String_of_length_four _ h4, Bool.false_eq_true, if_false]
  rw [hip]
  by_cases hp : (MaskSize ipnet.Mask).1 < 29
  · have hself := Contains_self_of_length_four [b0, b1, b2, (b3 + 10) % 256] ipnet.Mask rfl hml
    simp [To4Ref, IPv4len, IPRef.load, IPRef.store, hself, hp]
  · have hself := Contains_self_of_length_four [b0, b1, b2, (b3 + 2) % 256] ipnet.Mask rfl hml
    simp [To4Ref, IPv4len, IPRef.load, IPRef.store, hself, hp]

/-- C1, as found in the code. For the IPv6 service CIDR `fd00::/16` (prefix length 16)
`DNSAddress` returns `fd00:a::`: the 10 is added to the byte at index 3 of the 16-byte
address, whereas the network address with 10 added to its last byte is `fd00::a`.  For the
IPv4 example of the specification, `10.96.0.0/29`, the result is `10.96.0.2`. -/
theorem DNSAddress_ipv6_byte_three :
    DNSAddress (Sample.withServiceCIDR "fd00::/16") = .ret (.ok "fd00:a::") ∧
    (ParseCIDR "fd00::/16").map (fun x => (MaskSize x.2.Mask).1) = some 16 ∧
    (ParseCIDR "fd00::/16").map
      (fun x => IPString (x.2.IP.set 15 ((x.2.IP.getD 15 0 + 10) % 256))) = some "fd00::a" ∧
    DNSAddress (Sample.withServiceCIDR "10.96.0.0/29") = .ret (.ok "10.96.0.2") := by
  decide

/-- C2, as found in the code. For the service CIDR `10.96.0.0/31` `DNSAddress` returns
`10.96.0.2` without error, although the block holds `10.96.0.0` and `10.96.0.1` only; for
`10.96.0.255/32` it returns `10.96.0.1`.  The assignment to `address[3]` has changed
`ipnet.IP` as well, so `ipnet.Contains(address)` compares the address with itself. -/
theorem DNSAddress_outside_block :
    DNSAddress (Sample.withServiceCIDR "10.96.0.0/31") = .ret (.ok "10.96.0.2") ∧
    (ParseCIDR "10.96.0.0/31").map (fun x => Contains x.2 [10, 96, 0, 2]) = some false ∧
    IPString [10, 96, 0, 2] = "10.96.0.2" ∧
    DNSAddress (Sample.withServiceCIDR "10.96.0.255/32") = .ret (.ok "10.96.0.1") ∧
    (ParseCIDR "10.96.0.255/32").map (fun x => Contains x.2 [10, 96, 0, 1]) = some false := by
  decide

/-- What `UnmarshalJSON` returns in terms of the decoded configuration. -/
theorem UnmarshalJSON_ok (env : Env) (n n' : Network) (data : Document)
    (h : UnmarshalJSON env n data = .ok n') :
    ∃ d, Json.Unmarshal data { n with Provider := "kuberouter" } = .ok d ∧
      n' = applyDefaults env d := by
  unfold UnmarshalJSON at h
  cases hd : Json.Unmarshal data { n with Provider := "kuberouter" } with
  | err e => simp [hd] at h
  | ok d => exact ⟨d, rfl, by simpa [hd] using h.symm⟩

/-- The provider, the `Calico` block and the `KubeRouter` block of the decoded
configuration. -/
theorem Unmarshal_ok (data : Document) (n d : Network) (h : Json.Unmarshal data n = .ok d) :
    Json.decodeString (Spec.docProvider data) n.Provider = some d.Provider ∧
    (Spec.noCalicoBlock data n.Calico → d.Calico = none) ∧
    (Spec.noKubeRouterBlock data n.KubeRouter → d.KubeRouter = none) := by
  cases data with
  | invalid => simp [Json.Unmarshal] at h
  | null =>
    simp only [Json.Unmarshal, Result.ok.injEq] at h
    subst h
    exact ⟨rfl, fun hc => hc, fun hk => hk⟩
  | object f =>
    simp only [Json.Unmarshal] at h
    split at h
    · rename_i c dd kp kr pod pr svc dom hc hdd hkp hkr hpod hpr hsvc hdom
      simp only [Result.ok.injEq] at h
      subst h
      refine ⟨hpr, fun hn => ?_, fun hn => ?_⟩
      · simp only [Spec.noCalicoBlock] at hn
        rw [hn] at hc
        simpa using hc.symm
      · simp only [Spec.noKubeRouterBlock] at hn
        rw [hn] at hkr
        simpa using hkr.symm
    · simp at h

/-- C7. If a document is loaded without error, then: when it names provider calico and
leaves the receiver without a calico block, `Calico` is the default calico configuration
and `KubeRouter` is absent; when it names provider kuberouter, or no provider, and leaves
the receiver without a kuberouter block, `KubeRouter` is the default kuberouter
configuration and `Calico` is absent. -/
theorem UnmarshalJSON_default_block (env : Env) (n n' : Network) (data : Document)
    (h : UnmarshalJSON env n data = .ok n') :
    (Spec.docProvider data = .str "calico" → Spec.noCalicoBlock data n.Calico →
      n'.Calico = some env.DefaultCalico ∧ n'.KubeRouter = none) ∧
    ((Spec.docProvider data = .str "kuberouter" ∨ Spec.docProvider data = .absent ∨
        Spec.docProvider data = .null) → Spec.noKubeRouterBlock data n.KubeRouter →
      n'.KubeRouter = some env.DefaultKubeRouter ∧ n'.Calico = none) := by
  obtain ⟨d, hd, rfl⟩ := UnmarshalJSON_ok env n n' data h
  obtain ⟨hp, hc, hk⟩ := Unmarshal_ok data _ d hd
  have hne : ("kuberouter" : String) ≠ "calico" := by decide
  rw [applyDefaults_Calico, applyDefaults_KubeRouter]
  constructor
  · intro hpr hno
    rw [hpr] at hp
    simp only [Json.decodeString, Option.some.injEq] at hp
    simp [← hp, hc hno]
  · intro hpr hno
    have hp' : d.Provider = "kuberouter" := by
      rcases hpr with hpr | hpr | hpr <;> rw [hpr] at hp <;>
        simpa [Json.decodeString] using hp.symm
    simp [hp', hk hno, hne]

theorem UnmarshalJSON_default_block_witness :
    UnmarshalJSON Sample.env Sample.zero Sample.docCalico =
      .ok (applyDefaults Sample.env { Sample.zero with Provider := "calico" }) ∧
    (applyDefaults Sample.env { Sample.zero with Provider := "calico" }).Calico =
      some Sample.env.DefaultCalico ∧
    (applyDefaults Sample.env { Sample.zero with Provider := "calico" }).KubeRouter = none :=
  ⟨rfl, (UnmarshalJSON_default_block Sample.env Sample.zero _ Sample.docCalico rfl).1 rfl rfl⟩

/-- C8, as found in the code. The document `{"provider": ""}` loads without error and
leaves the provider empty. -/
theorem UnmarshalJSON_empty_provider :
    ∃ n', UnmarshalJSON Sample.env Sample.zero Sample.docEmptyProvider = .ok n' ∧
      n'.Provider = "" :=
  ⟨_, rfl, rfl⟩

/-- C8, amended. After a load without error the provider is the one the document names,
and kuberouter when the document has no provider key (or `null` there); so it is non-empty
unless the document sets the provider to the empty string. -/
theorem UnmarshalJSON_provider (env : Env) (n n' : Network) (data : Document)
    (h : UnmarshalJSON env n data = .ok n') :
    (∀ v, Spec.docProvider data = .str v → n'.Provider = v) ∧
    (Spec.docProvider data = .absent ∨ Spec.docProvider data = .null →
      n'.Provider = "kuberouter") ∧
    (Spec.docProvider data ≠ .str "" → n'.Provider ≠ "") := by
  obtain ⟨d, hd, rfl⟩ := UnmarshalJSON_ok env n n' data h
  obtain ⟨hp, -, -⟩ := Unmarshal_ok data _ d hd
  rw [applyDefaults_provider]
  have hne : ("kuberouter" : String) ≠ "" := by decide
  cases hj : Spec.docProvider data with
  | absent => rw [hj] at hp; simp [Json.decodeString] at hp; simp [← hp, hne]
  | null => rw [hj] at hp; simp [Json.decodeString] at hp; simp [← hp, hne]
  | str v =>
    rw [hj] at hp; simp [Json.decodeString] at hp
    subst hp
    refine ⟨fun w hw => by simpa using hw, by simp, fun hv he => hv (by rw [he])⟩
  | mistyped => rw [hj] at hp; simp [Json.decodeString] at hp

theorem UnmarshalJSON_provider_witness :
    UnmarshalJSON Sample.env Sample.zero Sample.docCalico =
      .ok (applyDefaults Sample.env { Sample.zero with Provider := "calico" }) ∧
    (applyDefaults Sample.env { Sample.zero with Provider := "calico" }).Provider ≠ "" :=
  ⟨rfl, (UnmarshalJSON_provider Sample.env Sample.zero _ Sample.docCalico rfl).2.2
    (by decide)⟩

/-- C9, as found in the code. With dual stack enabled, provider calico and no `Calico`
block, `Validate` reads `n.Calico.Mode` through a nil pointer and panics, whatever the
kube-proxy validation does. -/
theorem Validate_panics_without_calico (env : Env) :
    Validate env (some Sample.dualStackCalicoNoBlock) =
      .panic "invalid memory address or nil pointer dereference" := rfl

/-- C10. When `InternalAPIAddresses` succeeds, the list has one entry if dual stack is off
and two if it is on; the first entry is the address at index 1 (network address plus 1) of
`ServiceCIDR`, the second that of `DualStack.IPv6ServiceCIDR`.  It fails exactly when one
of the CIDRs in use has no such address, that is, when it does not parse or its prefix
length equals its bit length (a /32 or /128 block). -/
theorem InternalAPIAddresses_indexOne (n : Network) :
    (∀ l, InternalAPIAddresses n = .ok l →
      l.length = (if n.DualStack.Enabled = true then 2 else 1) ∧
      l.get? 0 = Spec.indexOne n.ServiceCIDR ∧
      (n.DualStack.Enabled = true → l.get? 1 = Spec.indexOne n.DualStack.IPv6ServiceCIDR)) ∧
    ((∃ e, InternalAPIAddresses n = .err e) ↔
      (Spec.indexOne n.ServiceCIDR = none ∨
        (n.DualStack.Enabled = true ∧ Spec.indexOne n.DualStack.IPv6ServiceCIDR = none))) ∧
    (∀ cidr, Spec.indexOne cidr = none ↔
      (ParseCIDRSloppy cidr = none ∨
        ∃ a net, ParseCIDRSloppy cidr = some (a, net) ∧
          ((MaskSize net.Mask = (32, 32) ∧ net.IP.length = 4) ∨
           (MaskSize net.Mask = (128, 128) ∧ net.IP.length = 16)))) := by
  refine ⟨?_, ?_, ?_⟩
  · intro l hl
    unfold InternalAPIAddresses at hl
    cases hd : n.DualStack.Enabled
    · simp only [hd, Bool.false_eq_true, if_false, Utilnet.ParseCIDRs] at hl ⊢
      cases hp : ParseCIDRSloppy n.ServiceCIDR with
      | none => simp [hp] at hl
      | some r =>
        obtain ⟨a, net⟩ := r
        have hi := Utilnet.GetIndexedIP_indexOne _ a net hp
        simp only [hp, indexedAddresses] at hl
        cases hg : Utilnet.GetIndexedIP net 1 with
        | none => simp [hg] at hl
        | some ip =>
          simp only [hg, Result.ok.injEq] at hl
          subst hl
          simp [← hi, hg]
    · simp only [hd, if_true, List.cons_append, List.nil_append, Utilnet.ParseCIDRs] at hl ⊢
      cases hp : ParseCIDRSloppy n.ServiceCIDR with
      | none => simp [hp] at hl
      | some r =>
        obtain ⟨a, net⟩ := r
        have hi := Utilnet.GetIndexedIP_indexOne _ a net hp
        cases hp6 : ParseCIDRSloppy n.DualStack.IPv6ServiceCIDR with
        | none => simp [hp, hp6] at hl
        | some r6 =>
          obtain ⟨a6, net6⟩ := r6
          have hi6 := Utilnet.GetIndexedIP_indexOne _ a6 net6 hp6
          simp only [hp, hp6, indexedAddresses] at hl
          cases hg : Utilnet.GetIndexedIP net 1 with
          | none => simp [hg] at hl
          | some ip =>
            cases hg6 : Utilnet.GetIndexedIP net6 1 with
            | none => simp [hg, hg6] at hl
            | some ip6 =>
              simp only [hg, hg6, Result.ok.injEq] at hl
              subst hl
              simp [← hi, ← hi6, hg, hg6]
  · unfold InternalAPIAddresses
    cases hd : n.DualStack.Enabled
    · simp only [Bool.false_eq_true, if_false, Utilnet.ParseCIDRs, false_and, or_false]
      cases hp : ParseCIDRSloppy n.ServiceCIDR with
      | none => simp [Spec.indexOne, hp]
      | some r =>
        obtain ⟨a, net⟩ := r
        have hi := Utilnet.GetIndexedIP_indexOne _ a net hp
        simp only [indexedAddresses]
        cases hg : Utilnet.GetIndexedIP net 1 with
        | none => simp [← hi, hg]
        | some ip => simp [← hi, hg]
    · simp only [if_true, List.cons_append, List.nil_append, Utilnet.ParseCIDRs, true_and]
      cases hp : ParseCIDRSloppy n.ServiceCIDR with
      | none => simp [Spec.indexOne, hp]
      | some r =>
        obtain ⟨a, net⟩ := r
        have hi := Utilnet.GetIndexedIP_indexOne _ a net hp
        cases hp6 : ParseCIDRSloppy n.DualStack.IPv6ServiceCIDR with
        | none => simp [Spec.indexOne, hp6]
        | some r6 =>
          obtain ⟨a6, net6⟩ := r6
          have hi6 := Utilnet.GetIndexedIP_indexOne _ a6 net6 hp6
          simp only [indexedAddresses]
          cases hg : Utilnet.GetIndexedIP net 1 with
          | none => simp [← hi, hg]
          | some ip =>
            cases hg6 : Utilnet.GetIndexedIP net6 1 with
            | none => simp [← hi6, hg6]
            | some ip6 => simp [← hi, ← hi6, hg, hg6]
  · intro cidr
    unfold Spec.indexOne
    cases hp : ParseCIDRSloppy cidr with
    | none => simp
    | some r =>
      obtain ⟨a, net⟩ := r
      obtain ⟨bits, p, hs⟩ := ParseCIDRWith_shape true cidr a net hp
      obtain ⟨hms, hlen⟩ := Utilnet.IsCIDRNet_facts net bits p hs
      simp only [hms, reduceCtorEq, Option.some.injEq, Prod.mk.injEq, false_or, exists_and_left,
        exists_eq_left', ite_eq_left_iff, imp_false, not_not]
      rcases hlen with ⟨rfl, hl⟩ | ⟨rfl, hl⟩
      · constructor
        · rintro rfl
          exact ⟨a, net, ⟨rfl, rfl⟩, Or.inl ⟨hms, hl⟩⟩
        · rintro ⟨_, _, ⟨rfl, rfl⟩, ⟨h1, -⟩ | ⟨-, h2⟩⟩
          · rw [hms] at h1
            exact (Prod.mk.inj h1).1
          · omega
      · constructor
        · rintro rfl
          exact ⟨a, net, ⟨rfl, rfl⟩, Or.inr ⟨hms, hl⟩⟩
        · rintro ⟨_, _, ⟨rfl, rfl⟩, ⟨-, h2⟩ | ⟨h1, -⟩⟩
          · omega
          · rw [hms] at h1
            exact (Prod.mk.inj h1).1

/-- Every returning run of `Validate` yields the errors it appends itself followed by
those of the kube-proxy validation. -/
theorem Validate_ret (env : Env) (n : Network) (l : List Err)
    (h : Validate env (some n) = .ret l) :
    ∃ b es, env.KubeProxyValidate n.KubeProxy = .ret es ∧
      (n.DualStack.Enabled = true → calicoModeNotBird n = .ret b) ∧
      l = Spec.ownErrors n b ++ es := by
  unfold Validate at h
  simp only [newPath_single, List.nil_append, Option.isNone_iff_eq_none,
    Bool.not_eq_true', ite_append_right] at h
  cases hd : n.DualStack.Enabled
  · rw [hd] at h
    cases hk : env.KubeProxyValidate n.KubeProxy with
    | panic m => simp [hk] at h
    | ret es =>
      simp only [hk, Bool.false_eq_true, if_false, Go.ret.injEq] at h
      refine ⟨false, es, rfl, by simp, ?_⟩
      rw [← h]
      unfold Spec.ownErrors
      by_cases h1 : n.Provider = ""
      · simp [h1, hd]
      · by_cases hp : n.Provider = "calico" <;> by_cases h2 : n.Provider = "custom" <;>
          by_cases h3 : n.Provider = "kuberouter" <;> simp [hp, h1, h2, h3, hd]
  · rw [hd] at h
    unfold validateDualStack at h
    simp only [if_true, newPath_calico_mode, newPath_v6pod, newPath_v6service,
      Option.isNone_iff_eq_none, ite_append_right] at h
    cases hg : calicoModeNotBird n with
    | panic m => simp [hg] at h
    | ret b =>
      cases hk : env.KubeProxyValidate n.KubeProxy with
      | panic m => simp [hg, hk] at h
      | ret es =>
        simp only [hg, hk, Go.ret.injEq] at h
        refine ⟨b, es, rfl, fun _ => rfl, ?_⟩
        rw [← h]
        unfold Spec.ownErrors
        by_cases h1 : n.Provider = ""
        · simp [h1, hd]
        · by_cases hp : n.Provider = "calico" <;> by_cases h2 : n.Provider = "custom" <;>
            by_cases h3 : n.Provider = "kuberouter" <;> simp [hp, h1, h2, h3, hd]

theorem onPath_provider_rest (n : Network) (b : Bool) :
    (Spec.ownErrors n b).filter (Spec.onPath "provider") =
      (if n.Provider = "" then [Field.Required "provider" ""]
       else if n.Provider ∉ ["kuberouter", "calico", "custom"] then
        [Field.NotSupported "provider" n.Provider ["kuberouter", "calico", "custom"]]
       else []) := by
  have e1 : ("podCIDR" == "provider") = false := by decide
  have e2 : ("serviceCIDR" == "provider") = false := by decide
  have e3 : ("clusterDomain" == "provider") = false := by decide
  have e4 : ("calico.mode" == "provider") = false := by decide
  have e5 : ("dualStack.IPv6podCIDR" == "provider") = false := by decide
  have e6 : ("dualStack.IPv6serviceCIDR" == "provider") = false := by decide
  unfold Spec.ownErrors
  simp only [List.filter_append]
  have hrest : ∀ (c : Prop) [Decidable c] (e : Err), Spec.onPath "provider" e = false →
      List.filter (Spec.onPath "provider") (if c then [e] else []) = [] := by
    intro c _ e he
    split_ifs <;> simp [he]
  rw [hrest _ _ (by simp [Spec.onPath, Field.Invalid, e1]),
    hrest _ _ (by simp [Spec.onPath, Field.Invalid, e2]),
    hrest _ _ (by simp [Spec.onPath, Field.Invalid, e3])]
  have hds : List.filter (Spec.onPath "provider")
      (if n.DualStack.Enabled = true then
        (if b = true then
          [Field.Forbidden "calico.mode"
            "dual stack for calico is only supported for mode `bird`"] else []) ++
        (if ParseCIDR n.DualStack.IPv6PodCIDR = none then
          [Field.Invalid "dualStack.IPv6podCIDR" n.DualStack.IPv6PodCIDR
            "invalid CIDR address"] else []) ++
        (if ParseCIDR n.DualStack.IPv6ServiceCIDR = none then
          [Field.Invalid "dualStack.IPv6serviceCIDR" n.DualStack.IPv6ServiceCIDR
            "invalid CIDR address"] else [])
       else []) = [] := by
    split_ifs <;> simp [Spec.onPath, Field.Invalid, Field.Forbidden, e4, e5, e6]
  rw [hds]
  simp only [List.append_nil]
  split_ifs <;> simp [Spec.onPath, Field.Required, Field.NotSupported]

/-- C11. Among the errors `Validate` appends itself (all of its result up to the errors of
the kube-proxy validation), those about `provider` are: exactly one, of kind Required, when
the provider is empty; exactly one, of kind NotSupported and listing kuberouter, calico and
custom, when it is non-empty and outside that set; none when it is inside the set. -/
theorem Validate_provider_errors (env : Env) (n : Network) (l : List Err)
    (h : Validate env (some n) = .ret l) :
    ∃ own es, env.KubeProxyValidate n.KubeProxy = .ret es ∧ l = own ++ es ∧
      (n.Provider = "" →
        own.filter (Spec.onPath "provider") = [Field.Required "provider" ""]) ∧
      (n.Provider ≠ "" → n.Provider ∉ ["calico", "kuberouter", "custom"] →
        own.filter (Spec.onPath "provider") =
          [Field.NotSupported "provider" n.Provider ["kuberouter", "calico", "custom"]]) ∧
      (n.Provider ∈ ["calico", "kuberouter", "custom"] →
        own.filter (Spec.onPath "provider") = []) := by
  obtain ⟨b, es, hes, -, hl⟩ := Validate_ret env n l h
  refine ⟨Spec.ownErrors n b, es, hes, hl, ?_, ?_, ?_⟩
  · intro hp
    rw [onPath_provider_rest, if_pos hp]
  · intro hp hn
    have hn' : n.Provider ∉ ["kuberouter", "calico", "custom"] := by
      simp only [List.mem_cons, List.mem_singleton, List.not_mem_nil, or_false] at hn ⊢
      tauto
    rw [onPath_provider_rest, if_neg hp, if_pos hn']
  · intro hm
    have hp : n.Provider ≠ "" := by
      intro he
      rw [he] at hm
      revert hm
      decide
    have hn' : ¬ n.Provider ∉ ["kuberouter", "calico", "custom"] := by
      simp only [List.mem_cons, List.mem_singleton, List.not_mem_nil, or_false] at hm ⊢
      tauto
    rw [onPath_provider_rest, if_neg hp, if_neg hn']

theorem Validate_provider_errors_witness :
    Validate Sample.env (some Sample.foobar) =
      .ret [Field.NotSupported "provider" "foobar" ["kuberouter", "calico", "custom"]] ∧
    ∃ own es, Sample.env.KubeProxyValidate Sample.foobar.KubeProxy = .ret es ∧
      [Field.NotSupported "provider" "foobar" ["kuberouter", "calico", "custom"]] = own ++ es ∧
      (Sample.foobar.Provider = "" →
        own.filter (Spec.onPath "provider") = [Field.Required "provider" ""]) ∧
      (Sample.foobar.Provider ≠ "" →
        Sample.foobar.Provider ∉ ["calico", "kuberouter", "custom"] →
        own.filter (Spec.onPath "provider") =
          [Field.NotSupported "provider" Sample.foobar.Provider
            ["kuberouter", "calico", "custom"]]) ∧
      (Sample.foobar.Provider ∈ ["calico", "kuberouter", "custom"] →
        own.filter (Spec.onPath "provider") = []) :=
  ⟨by decide, Validate_provider_errors Sample.env Sample.foobar _ (by decide)⟩

/-- C12. For a configuration with a `Calico` block, the errors `Validate` appends itself
contain a Forbidden error on `calico.mode` exactly when dual stack is enabled, the provider
is calico and the calico mode is not `bird`. -/
theorem Validate_forbidden_calico_mode (env : Env) (n : Network) (c : K0s.Calico)
    (l : List Err) (hc : n.Calico = some c) (h : Validate env (some n) = .ret l) :
    ∃ own es, env.KubeProxyValidate n.KubeProxy = .ret es ∧ l = own ++ es ∧
      ((∃ e ∈ own, Spec.forbiddenOn "calico.mode" e = true) ↔
        (n.DualStack.Enabled = true ∧ n.Provider = "calico" ∧ c.Mode ≠ "bird")) := by
  obtain ⟨b, es, hes, hb, hl⟩ := Validate_ret env n l h
  refine ⟨Spec.ownErrors n b, es, hes, hl, ?_⟩
  have hany : ∀ (c : Prop) [Decidable c] (e : Err),
      List.any (if c then [e] else []) (Spec.forbiddenOn "calico.mode") =
        (decide c && Spec.forbiddenOn "calico.mode" e) := by
    intro c _ e
    split_ifs with hc' <;> simp [hc']
  have hmem : (∃ e ∈ Spec.ownErrors n b, Spec.forbiddenOn "calico.mode" e = true) ↔
      (n.DualStack.Enabled = true ∧ b = true) := by
    rw [← List.any_eq_true]
    unfold Spec.ownErrors
    have hprov : List.any (if n.Provider = "" then [Field.Required "provider" ""]
        else if n.Provider ∉ ["kuberouter", "calico", "custom"] then
          [Field.NotSupported "provider" n.Provider ["kuberouter", "calico", "custom"]]
        else []) (Spec.forbiddenOn "calico.mode") = false := by
      split_ifs <;> simp [Spec.forbiddenOn, Field.Required, Field.NotSupported]
    have hds : List.any (if n.DualStack.Enabled = true then
          (if b = true then
            [Field.Forbidden "calico.mode"
              "dual stack for calico is only supported for mode `bird`"] else []) ++
          (if ParseCIDR n.DualStack.IPv6PodCIDR = none then
            [Field.Invalid "dualStack.IPv6podCIDR" n.DualStack.IPv6PodCIDR
              "invalid CIDR address"] else []) ++
          (if ParseCIDR n.DualStack.IPv6ServiceCIDR = none then
            [Field.Invalid "dualStack.IPv6serviceCIDR" n.DualStack.IPv6ServiceCIDR
              "invalid CIDR address"] else [])
         else []) (Spec.forbiddenOn "calico.mode") =
        (n.DualStack.Enabled && b) := by
      by_cases hd : n.DualStack.Enabled = true
      · simp only [hd, if_true, List.any_append, hany, Bool.true_and]
        simp [Spec.forbiddenOn, Field.Forbidden, Field.Invalid]
      · simp [hd]
    simp only [List.any_append, hany, hprov, hds]
    simp [Spec.forbiddenOn, Field.Invalid]
  rw [hmem]
  have hb' : n.DualStack.Enabled = true →
      b = (if n.Provider = "calico" then decide (c.Mode ≠ "bird") else false) := by
    intro hd
    have := hb hd
    unfold calicoModeNotBird at this
    rw [hc] at this
    split_ifs at this with hp
    · simp only [Go.ret.injEq] at this
      simp [hp, ← this]
    · simp only [Go.ret.injEq] at this
      simp [hp, ← this]
  constructor
  · rintro ⟨hd, hbt⟩
    have := hb' hd
    rw [hbt] at this
    split_ifs at this with hp
    exact ⟨hd, hp, by simpa using this.symm⟩
  · rintro ⟨hd, hp, hm⟩
    refine ⟨hd, ?_⟩
    rw [hb' hd, if_pos hp]
    simpa using hm

theorem Validate_forbidden_calico_mode_witness :
    Validate Sample.env (some Sample.dualStackCalicoVxlan) =
      .ret [Field.Forbidden "calico.mode"
        "dual stack for calico is only supported for mode `bird`"] ∧
    ∃ own es, Sample.env.KubeProxyValidate Sample.dualStackCalicoVxlan.KubeProxy = .ret es ∧
      [Field.Forbidden "calico.mode"
        "dual stack for calico is only supported for mode `bird`"] = own ++ es ∧
      ((∃ e ∈ own, Spec.forbiddenOn "calico.mode" e = true) ↔
        (Sample.dualStackCalicoVxlan.DualStack.Enabled = true ∧
          Sample.dualStackCalicoVxlan.Provider = "calico" ∧ "vxlan" ≠ "bird")) :=
  ⟨by decide, Validate_forbidden_calico_mode Sample.env Sample.dualStackCalicoVxlan
    { Mode := "vxlan", settings := 0 } _ rfl (by decide)⟩

/-- C13. `Validate` applied to `DefaultNetwork()` returns the empty list, provided the two
collaborators outside `network.go` behave as the specification says of the defaults:
`DefaultDualStack()` is disabled or carries two valid IPv6 CIDRs, and the kube-proxy
validation accepts `DefaultKubeProxy()`. -/
theorem Validate_DefaultNetwork (env : Env)
    (hds : env.DefaultDualStack.Enabled = true →
      (ParseCIDR env.DefaultDualStack.IPv6PodCIDR).isSome = true ∧
      (ParseCIDR env.DefaultDualStack.IPv6ServiceCIDR).isSome = true)
    (hkp : env.KubeProxyValidate (some (DefaultKubeProxy env)) = .ret []) :
    Validate env (some (DefaultNetwork env)) = .ret [] := by
  have h1 : (ParseCIDR "10.244.0.0/16").isNone = false := by decide
  have h2 : (ParseCIDR "10.96.0.0/12").isNone = false := by decide
  have h3 : Govalidator.IsDNSName "cluster.local" = true := by decide
  have h4 : ("kuberouter" : String) ≠ "" := by decide
  have h5 : ("kuberouter" : String) ≠ "calico" := by decide
  unfold Validate DefaultNetwork
  simp only [h1, h2, h3, h4, h5, hkp, if_false, Bool.not_true, Bool.false_eq_true, ne_eq,
    not_true_eq_false, and_false, not_false_eq_true]
  cases hd : env.DefaultDualStack.Enabled
  · simp
  · obtain ⟨h6, h7⟩ := hds hd
    have h6' : (ParseCIDR env.DefaultDualStack.IPv6PodCIDR).isNone = false := by
      cases hx : ParseCIDR env.DefaultDualStack.IPv6PodCIDR <;> simp_all
    have h7' : (ParseCIDR env.DefaultDualStack.IPv6ServiceCIDR).isNone = false := by
      cases hx : ParseCIDR env.DefaultDualStack.IPv6ServiceCIDR <;> simp_all
    simp [validateDualStack, calicoModeNotBird, h5, h6', h7']

theorem Validate_DefaultNetwork_witness :
    Validate Sample.env (some (DefaultNetwork Sample.env)) = .ret [] :=
  Validate_DefaultNetwork Sample.env (fun h => absurd h (by decide)) rfl

/-- C14. `BuildServiceCIDR(addr)` is `ServiceCIDR` when dual stack is disabled; when it is
enabled it is `IPv6ServiceCIDR,ServiceCIDR` if `addr` is an IPv6 address and
`ServiceCIDR,IPv6ServiceCIDR` otherwise, that is when `addr` does not parse as an IP address
or parses as one that has a 4-byte form. -/
theorem BuildServiceCIDR_cases (n : Network) (addr : String) :
    (n.DualStack.Enabled = false → BuildServiceCIDR n addr = n.ServiceCIDR) ∧
    (n.DualStack.Enabled = true → IsIPv6String addr = true →
      BuildServiceCIDR n addr = n.DualStack.IPv6ServiceCIDR ++ "," ++ n.ServiceCIDR) ∧
    (n.DualStack.Enabled = true → IsIPv6String addr = false →
      BuildServiceCIDR n addr = n.ServiceCIDR ++ "," ++ n.DualStack.IPv6ServiceCIDR) ∧
    (IsIPv6String addr = true ↔ ∃ ip, ParseIP false addr = some ip ∧ To4 ip = []) ∧
    (IsIPv6String addr = false ↔
      (ParseIP false addr = none ∨ ∃ ip, ParseIP false addr = some ip ∧ To4 ip ≠ [])) := by
  refine ⟨?_, ?_, ?_, ?_, ?_⟩
  · intro hd
    simp [BuildServiceCIDR, hd]
  · intro hd h6
    simp [BuildServiceCIDR, hd, h6]
  · intro hd h6
    simp [BuildServiceCIDR, hd, h6]
  · unfold IsIPv6String
    cases ParseIP false addr <;> simp
  · unfold IsIPv6String
    cases ParseIP false addr <;> simp

/-- C15. `BuildPodCIDR()` is `PodCIDR` when dual stack is disabled and
`IPv6PodCIDR,PodCIDR` when it is enabled. -/
theorem BuildPodCIDR_cases (n : Network) :
    (n.DualStack.Enabled = false → BuildPodCIDR n = n.PodCIDR) ∧
    (n.DualStack.Enabled = true →
      BuildPodCIDR n = n.DualStack.IPv6PodCIDR ++ "," ++ n.PodCIDR) := by
  constructor
  · intro hd
    simp [BuildPodCIDR, hd]
  · intro hd
    simp [BuildPodCIDR, hd]

/-- The kube-proxy block after the defaulting pass. -/
theorem applyDefaults_KubeProxy (env : Env) (n : Network) :
    (applyDefaults env n).KubeProxy =
      match n.KubeProxy with
      | none => some (DefaultKubeProxy env)
      | some kp =>
        some { IPTables := some (kp.IPTables.getD env.DefaultKubeProxyIPTables)
               IPVS := some (kp.IPVS.getD env.DefaultKubeProxyIPVS)
               settings := kp.settings } := by
  unfold applyDefaults
  split_ifs <;> dsimp only <;> cases hk : n.KubeProxy with
  | none => rfl
  | some kp =>
    obtain ⟨ipt, ipvs, st⟩ := kp
    cases ipt <;> cases ipvs <;> simp

/-- C16. After the defaulting pass `KubeProxy`, `KubeProxy.IPTables` and `KubeProxy.IPVS`
are present: an absent `KubeProxy` becomes the default kube-proxy configuration, and in a
present one an absent `IPTables` or `IPVS` becomes its default, each independently, while
what was present (and every other setting) is left as given. -/
theorem applyDefaults_KubeProxy_present (env : Env) (n : Network) :
    (∃ kp ipt ipvs, (applyDefaults env n).KubeProxy = some kp ∧
      kp.IPTables = some ipt ∧ kp.IPVS = some ipvs) ∧
    (n.KubeProxy = none → (applyDefaults env n).KubeProxy = some (DefaultKubeProxy env)) ∧
    (∀ kp0, n.KubeProxy = some kp0 →
      ∃ kp, (applyDefaults env n).KubeProxy = some kp ∧ kp.settings = kp0.settings ∧
        (kp0.IPTables = none → kp.IPTables = some env.DefaultKubeProxyIPTables) ∧
        (∀ t, kp0.IPTables = some t → kp.IPTables = some t) ∧
        (kp0.IPVS = none → kp.IPVS = some env.DefaultKubeProxyIPVS) ∧
        (∀ v, kp0.IPVS = some v → kp.IPVS = some v)) := by
  rw [applyDefaults_KubeProxy]
  refine ⟨?_, ?_, ?_⟩
  · cases n.KubeProxy with
    | none => exact ⟨_, _, _, rfl, rfl, rfl⟩
    | some kp0 => exact ⟨_, _, _, rfl, rfl, rfl⟩
  · intro h
    rw [h]
  · intro kp0 h
    rw [h]
    refine ⟨_, rfl, rfl, ?_, ?_, ?_, ?_⟩
    · intro h0; simp [h0]
    · intro t h0; simp [h0]
    · intro h0; simp [h0]
    · intro v h0; simp [h0]

/-- C17. `Validate` on the nil configuration returns no errors. -/
theorem Validate_nil (env : Env) : Validate env none = .ret [] := rfl

/-- The defaulting pass leaves the five plain fields as decoded. -/
theorem applyDefaults_plain (env : Env) (n : Network) :
    (applyDefaults env n).PodCIDR = n.PodCIDR ∧
    (applyDefaults env n).ServiceCIDR = n.ServiceCIDR ∧
    (applyDefaults env n).ClusterDomain = n.ClusterDomain ∧
    (applyDefaults env n).DualStack = n.DualStack ∧
    (applyDefaults env n).Provider = n.Provider := by
  unfold applyDefaults
  split_ifs <;> dsimp only <;> split <;> exact ⟨rfl, rfl, rfl, rfl, rfl⟩

/-- The three address-related strings of the decoded configuration. -/
theorem Unmarshal_strings (data : Document) (n d : Network)
    (h : Json.Unmarshal data n = .ok d) :
    Json.decodeString (Spec.docPodCIDR data) n.PodCIDR = some d.PodCIDR ∧
    Json.decodeString (Spec.docServiceCIDR data) n.ServiceCIDR = some d.ServiceCIDR ∧
    Json.decodeString (Spec.docClusterDomain data) n.ClusterDomain = some d.ClusterDomain := by
  cases data with
  | invalid => simp [Json.Unmarshal] at h
  | null =>
    simp only [Json.Unmarshal, Result.ok.injEq] at h
    subst h
    exact ⟨rfl, rfl, rfl⟩
  | object f =>
    simp only [Json.Unmarshal] at h
    split at h
    · rename_i c dd kp kr pod pr svc dom hc hdd hkp hkr hpod hpr hsvc hdom
      simp only [Result.ok.injEq] at h
      subst h
      exact ⟨hpod, hsvc, hdom⟩
    · simp at h

/-- C19. The defaulting pass that `UnmarshalJSON` runs after decoding leaves `PodCIDR`,
`ServiceCIDR`, `ClusterDomain`, `DualStack` and `Provider` as decoded; in particular, when
the document has no `podCIDR`, `serviceCIDR` or `clusterDomain` key the field keeps what the
receiver held and does not receive the value of `DefaultNetwork`. -/
theorem UnmarshalJSON_frame (env : Env) (n n' : Network) (data : Document)
    (h : UnmarshalJSON env n data = .ok n') :
    ∃ d, Json.Unmarshal data { n with Provider := "kuberouter" } = .ok d ∧
      n' = applyDefaults env d ∧
      n'.PodCIDR = d.PodCIDR ∧ n'.ServiceCIDR = d.ServiceCIDR ∧
      n'.ClusterDomain = d.ClusterDomain ∧ n'.DualStack = d.DualStack ∧
      n'.Provider = d.Provider ∧
      (Spec.docPodCIDR data = .absent → n'.PodCIDR = n.PodCIDR) ∧
      (Spec.docServiceCIDR data = .absent → n'.ServiceCIDR = n.ServiceCIDR) ∧
      (Spec.docClusterDomain data = .absent → n'.ClusterDomain = n.ClusterDomain) := by
  obtain ⟨d, hd, rfl⟩ := UnmarshalJSON_ok env n n' data h
  obtain ⟨h1, h2, h3, h4, h5⟩ := applyDefaults_plain env d
  obtain ⟨hpod, hsvc, hdom⟩ := Unmarshal_strings data _ d hd
  refine ⟨d, hd, rfl, h1, h2, h3, h4, h5, ?_, ?_, ?_⟩
  · intro ha
    rw [ha] at hpod
    simp only [Json.decodeString, Option.some.injEq] at hpod
    rw [h1, ← hpod]
  · intro ha
    rw [ha] at hsvc
    simp only [Json.decodeString, Option.some.injEq] at hsvc
    rw [h2, ← hsvc]
  · intro ha
    rw [ha] at hdom
    simp only [Json.decodeString, Option.some.injEq] at hdom
    rw [h3, ← hdom]

theorem UnmarshalJSON_frame_witness :
    UnmarshalJSON Sample.env Sample.zero Sample.docCalico =
      .ok (applyDefaults Sample.env { Sample.zero with Provider := "calico" }) ∧
    (applyDefaults Sample.env { Sample.zero with Provider := "calico" }).PodCIDR = "" ∧
    (DefaultNetwork Sample.env).PodCIDR = "10.244.0.0/16" := by
  obtain ⟨d, hd, -, -, -, -, -, -, hpod, -, -⟩ :=
    UnmarshalJSON_frame Sample.env Sample.zero _ Sample.docCalico rfl
  exact ⟨rfl, hpod rfl, rfl⟩

/-- After a validation without errors the service CIDRs in use parse. -/
theorem Validate_nil_parses (env : Env) (n : Network) (h : Validate env (some n) = .ret []) :
    (∃ r, ParseCIDR n.ServiceCIDR = some r) ∧
    (n.DualStack.Enabled = true → ∃ r, ParseCIDR n.DualStack.IPv6ServiceCIDR = some r) := by
  obtain ⟨b, es, -, -, hl⟩ := Validate_ret env n [] h
  have hown : Spec.ownErrors n b = [] := (List.append_eq_nil.mp hl.symm).1
  unfold Spec.ownErrors at hown
  simp only [List.append_eq_nil] at hown
  obtain ⟨⟨⟨⟨-, -⟩, h3⟩, -⟩, h5⟩ := hown
  constructor
  · cases hp : ParseCIDR n.ServiceCIDR with
    | none => simp [hp] at h3
    | some r => exact ⟨r, rfl⟩
  · intro hd
    simp only [hd, if_true, List.append_eq_nil] at h5
    cases hp : ParseCIDR n.DualStack.IPv6ServiceCIDR with
    | none => simp [hp] at h5
    | some r => exact ⟨r, rfl⟩

/-- The outcome of `InternalAPIAddresses` on one parsed network. -/
theorem indexedAddresses_one (net : IPNet) (bits p : Nat) (hs : Spec.IsCIDRNet net bits p)
    (rest : List IPNet) :
    indexedAddresses (net :: rest) =
      if (MaskSize net.Mask).1 = (MaskSize net.Mask).2 then .err .index
      else match indexedAddresses rest with
        | .err e => .err e
        | .ok l => .ok (IPString (Net.To16 (Spec.plusOne net.IP)) :: l) := by
  obtain ⟨hms, -⟩ := Utilnet.IsCIDRNet_facts net bits p hs
  conv_lhs => rw [indexedAddresses]
  rw [Utilnet.GetIndexedIP_one net bits p hs, hms]
  simp only
  split_ifs <;> rfl

/-- C18, as found in the code. A configuration with service CIDR `10.96.0.0/32` passes
`Validate` without errors, yet `InternalAPIAddresses` fails: the block has no address at
index 1. -/
theorem Validate_nil_InternalAPIAddresses_fails :
    Validate Sample.env (some Sample.singleAddress) = .ret [] ∧
    InternalAPIAddresses Sample.singleAddress = .err .index := by
  decide

/-- C18, amended. On a configuration that `Validate` accepts without errors,
`InternalAPIAddresses` never fails to parse, and it succeeds exactly when neither
`ServiceCIDR` nor, under dual stack, `DualStack.IPv6ServiceCIDR` is a block of a single
address (a /32 or /128). -/
theorem Validate_nil_InternalAPIAddresses (env : Env) (n : Network)
    (h : Validate env (some n) = .ret []) :
    InternalAPIAddresses n ≠ .err .parse ∧
    ((∃ l, InternalAPIAddresses n = .ok l) ↔
      (¬ Spec.singleAddressBlock n.ServiceCIDR ∧
       (n.DualStack.Enabled = true →
          ¬ Spec.singleAddressBlock n.DualStack.IPv6ServiceCIDR))) := by
  obtain ⟨⟨⟨a, net⟩, hp⟩, hp6⟩ := Validate_nil_parses env n h
  have hps := ParseCIDR_sloppy _ _ hp
  obtain ⟨bits, p, hs⟩ := ParseCIDRWith_shape false _ a net hp
  have hsingle : Spec.singleAddressBlock n.ServiceCIDR ↔
      (MaskSize net.Mask).1 = (MaskSize net.Mask).2 := by
    unfold Spec.singleAddressBlock
    rw [hp]
    constructor
    · rintro ⟨_, _, hh, he⟩
      simp only [Option.some.injEq, Prod.mk.injEq] at hh
      obtain ⟨-, rfl⟩ := hh
      exact he
    · intro he
      exact ⟨a, net, rfl, he⟩
  unfold InternalAPIAddresses
  cases hd : n.DualStack.Enabled
  · simp only [Bool.false_eq_true, if_false, Utilnet.ParseCIDRs, hps, false_implies, and_true]
    rw [indexedAddresses_one net bits p hs, hsingle]
    simp only [indexedAddresses]
    split_ifs with he <;> simp [he]
  · obtain ⟨⟨a6, net6⟩, hp6'⟩ := hp6 hd
    have hps6 := ParseCIDR_sloppy _ _ hp6'
    obtain ⟨bits6, p6, hs6⟩ := ParseCIDRWith_shape false _ a6 net6 hp6'
    have hsingle6 : Spec.singleAddressBlock n.DualStack.IPv6ServiceCIDR ↔
        (MaskSize net6.Mask).1 = (MaskSize net6.Mask).2 := by
      unfold Spec.singleAddressBlock
      rw [hp6']
      constructor
      · rintro ⟨_, _, hh, he⟩
        simp only [Option.some.injEq, Prod.mk.injEq] at hh
        obtain ⟨-, rfl⟩ := hh
        exact he
      · intro he
        exact ⟨a6, net6, rfl, he⟩
    simp only [if_true, List.cons_append, List.nil_append, Utilnet.ParseCIDRs, hps, hps6,
      true_implies]
    rw [indexedAddresses_one net bits p hs, indexedAddresses_one net6 bits6 p6 hs6, hsingle,
      hsingle6]
    simp only [indexedAddresses]
    by_cases he : (MaskSize net.Mask).1 = (MaskSize net.Mask).2 <;>
      by_cases he6 : (MaskSize net6.Mask).1 = (MaskSize net6.Mask).2 <;> simp [he, he6]

theorem Validate_nil_InternalAPIAddresses_witness :
    Validate Sample.env (some Sample.dualStackCalico) = .ret [] ∧
    InternalAPIAddresses Sample.dualStackCalico ≠ .err .parse ∧
    ((∃ l, InternalAPIAddresses Sample.dualStackCalico = .ok l) ↔
      (¬ Spec.singleAddressBlock Sample.dualStackCalico.ServiceCIDR ∧
       (Sample.dualStackCalico.DualStack.Enabled = true →
          ¬ Spec.singleAddressBlock Sample.dualStackCalico.DualStack.IPv6ServiceCIDR))) :=
  ⟨by decide, Validate_nil_InternalAPIAddresses Sample.env Sample.dualStackCalico (by decide)⟩

/-- A successful `DNSAddress` returns the text of an address of 4 or of 16 bytes whose last
byte has the parity of the last byte of the network address. -/
theorem DNSAddress_ok_last (n : Network) (s : String) (a : List Nat) (net : IPNet)
    (hp : ParseCIDR n.ServiceCIDR = some (a, net)) (hD : DNSAddress n = .ret (.ok s)) :
    ∃ r, s = IPString r ∧ (r.length = 4 ∨ r.length = 16) ∧
      r.getD (r.length - 1) 0 % 2 = net.IP.getD (net.IP.length - 1) 0 % 2 := by
  obtain ⟨bits, p, hs⟩ := ParseCIDRWith_shape false _ _ _ hp
  obtain ⟨-, hlen⟩ := Utilnet.IsCIDRNet_facts net bits p hs
  have hl : net.IP.length = 4 ∨ net.IP.length = 16 := by
    rcases hlen with ⟨-, h⟩ | ⟨-, h⟩
    · exact Or.inl h
    · exact Or.inr h
  unfold DNSAddress at hD
  rw [hp] at hD
  dsimp only at hD
  generalize hadr : (if IsIPv6String (IPString net.IP) = true then To16Ref net.IP
    else To4Ref net.IP) = address at hD
  have hr : address = To4Ref net.IP ∨ address = To16Ref net.IP := by
    rw [← hadr]
    split_ifs
    · exact Or.inr rfl
    · exact Or.inl rfl
  generalize hnew : (if (MaskSize net.Mask).1 < 29
    then ((address.load net.IP).getD 3 0 + 10) % 256
    else ((address.load net.IP).getD 3 0 + 2) % 256) = new at hD
  have hv : new % 2 = (address.load net.IP).getD 3 0 % 2 := by
    rw [← hnew]
    split_ifs <;> omega
  cases hst : address.store net.IP 3 new with
  | none =>
    rw [hst] at hD
    cases hD
  | some pr =>
    obtain ⟨ip1, a1⟩ := pr
    rw [hst] at hD
    dsimp only at hD
    obtain ⟨h1, h2⟩ := store_load_last net.IP hl address hr new hv ip1 a1 hst
    split_ifs at hD
    · cases hD
    · simp only [Go.ret.injEq, Result.ok.injEq] at hD
      exact ⟨_, hD.symm, h1, h2⟩

/-- A successful `InternalAPIAddresses` starts with the text of the address that follows
the network address of the service CIDR, and the block then holds more than one address. -/
theorem InternalAPIAddresses_head (n : Network) (l : List String) (a : List Nat)
    (net : IPNet) (bits p : Nat) (hp : ParseCIDRSloppy n.ServiceCIDR = some (a, net))
    (hs : Spec.IsCIDRNet net bits p) (hA : InternalAPIAddresses n = .ok l) :
    p ≠ bits ∧ l.head? = some (IPString (To16 (Spec.plusOne net.IP))) := by
  obtain ⟨hms, -⟩ := Utilnet.IsCIDRNet_facts net bits p hs
  unfold InternalAPIAddresses at hA
  dsimp only at hA
  have hc : (if n.DualStack.Enabled = true then [n.ServiceCIDR] ++ [n.DualStack.IPv6ServiceCIDR]
      else [n.ServiceCIDR]) =
      n.ServiceCIDR :: (if n.DualStack.Enabled = true then [n.DualStack.IPv6ServiceCIDR]
        else []) := by
    split_ifs <;> rfl
  rw [hc, Utilnet.ParseCIDRs, hp] at hA
  dsimp only at hA
  cases hr : Utilnet.ParseCIDRs (if n.DualStack.Enabled = true
      then [n.DualStack.IPv6ServiceCIDR] else []) with
  | none =>
    rw [hr] at hA
    cases hA
  | some cidrs =>
    rw [hr] at hA
    dsimp only at hA
    rw [indexedAddresses_one net bits p hs, hms] at hA
    dsimp only at hA
    split_ifs at hA with hpb
    cases hi : indexedAddresses cidrs with
    | err e =>
      rw [hi] at hA
      cases hA
    | ok l0 =>
      rw [hi] at hA
      simp only [Result.ok.injEq] at hA
      subst hA
      exact ⟨hpb, rfl⟩

/-- C20. For every configuration on which `DNSAddress` returns an address and
`InternalAPIAddresses` returns a list, the list is not empty, its first entry is the
address at index 1 of `ServiceCIDR`, and that entry differs from the DNS address. -/
theorem DNSAddress_ne_InternalAPIAddress (n : Network) (s : String) (l : List String)
    (hD : DNSAddress n = .ret (.ok s)) (hA : InternalAPIAddresses n = .ok l) :
    ∃ api, l.head? = some api ∧ Spec.indexOne n.ServiceCIDR = some api ∧ api ≠ s := by
  cases hp : ParseCIDR n.ServiceCIDR with
  | none =>
    unfold DNSAddress at hD
    rw [hp] at hD
    cases hD
  | some r =>
    obtain ⟨a, net⟩ := r
    have hsl := ParseCIDR_sloppy _ _ hp
    obtain ⟨bits, p, hs⟩ := ParseCIDRWith_shape false _ _ _ hp
    obtain ⟨hms, hlen⟩ := Utilnet.IsCIDRNet_facts net bits p hs
    obtain ⟨hpb, hhead⟩ := InternalAPIAddresses_head n l a net bits p hsl hs hA
    obtain ⟨r, hsr, hrl, hrpar⟩ := DNSAddress_ok_last n s a net hp hD
    have heven := IsCIDRNet_last_even net bits p hs hpb
    have hl : net.IP.length = 4 ∨ net.IP.length = 16 := by
      rcases hlen with ⟨-, h⟩ | ⟨-, h⟩
      · exact Or.inl h
      · exact Or.inr h
    have hpl : (Spec.plusOne net.IP).length = net.IP.length := by simp [Spec.plusOne]
    have hlast : (Spec.plusOne net.IP).getD ((Spec.plusOne net.IP).length - 1) 0 =
        net.IP.getD (net.IP.length - 1) 0 + 1 := by
      rw [hpl]
      unfold Spec.plusOne
      rw [List.getD_eq_getElem?_getD, List.getElem?_set_self (by omega)]
      rfl
    obtain ⟨c1, hc1, hodd1⟩ := IPString_getLast (Spec.plusOne net.IP) (by rw [hpl]; exact hl)
    obtain ⟨c2, hc2, hodd2⟩ := IPString_getLast r hrl
    rw [hlast] at hodd1
    have ho1 : Spec.oddDigit c1 = true := by
      rw [hodd1]
      exact decide_eq_true (by omega)
    have ho2 : Spec.oddDigit c2 = false := by
      rw [hodd2]
      exact decide_eq_false (by omega)
    have hto : IPString (To16 (Spec.plusOne net.IP)) = IPString (Spec.plusOne net.IP) :=
      Utilnet.IPString_To16 _ (by rw [hpl]; exact hl)
    refine ⟨_, hhead, ?_, ?_⟩
    · unfold Spec.indexOne
      rw [hsl]
      dsimp only
      rw [hms]
      dsimp only
      rw [if_neg hpb, hto]
    · intro heq
      rw [hto, hsr] at heq
      rw [heq, hc2] at hc1
      simp only [Option.some.injEq] at hc1
      rw [hc1, ho1] at ho2
      cases ho2

theorem DNSAddress_ne_InternalAPIAddress_witness :
    DNSAddress (Sample.withServiceCIDR "10.96.0.0/12") = .ret (.ok "10.96.0.10") ∧
    InternalAPIAddresses (Sample.withServiceCIDR "10.96.0.0/12") = .ok ["10.96.0.1"] ∧
    ∃ api, ["10.96.0.1"].head? = some api ∧
      Spec.indexOne (Sample.withServiceCIDR "10.96.0.0/12").ServiceCIDR = some api ∧
      api ≠ "10.96.0.10" :=
  ⟨by decide, by decide,
    DNSAddress_ne_InternalAPIAddress (Sample.withServiceCIDR "10.96.0.0/12") "10.96.0.10"
      ["10.96.0.1"] (by decide) (by decide)⟩

end Network

end K0s
